import Mathlib

/-!
Shallow embedding of the `pyvmdstream` library (files `pyvmdstream.py` and
`examples/draw_example.py`).

The library writes newline-terminated text commands to a TCP socket connected
to VMD.  We model each socket line by a structured command (`Cmd`): one `Cmd`
value corresponds to exactly one line sent on the socket, with the numeric
payload kept exactly (rationals stand for the Python floats; the `%f`/`%i`
textual formatting carries no information the claims depend on).

Operations that can raise mid-way (out-of-range indexing, subscripting `None`)
are modelled by a result `Res` that records the lines already sent before the
exception, so that partial output is visible.
-/

namespace PyVMDStream

/-- Python/numpy sequence indexing `l[i]` for an `int` index: indices in
`[-len, len)` are valid, negative indices wrap around, anything else raises
`IndexError` (modelled as `none`). -/
def pyIndex {α : Type} (l : List α) (i : Int) : Option α :=
  if 0 ≤ i then l.get? i.toNat
  else if 0 ≤ i + l.length then l.get? (i + l.length).toNat
  else none

/-- Hard coded values from vmd version 1.9: `VMDSTARTCOLOR=33`. -/
def VMDSTARTCOLOR : Int := 33

/-- Hard coded values from vmd version 1.9: `VMDNCOLORS=1024`. -/
def VMDNCOLORS : Int := 1024

/-- One particle position: a row of the `(N,3)` configuration array. -/
abbrev Vec3 := ℚ × ℚ × ℚ

/-- One text line sent to VMD.  Each constructor is one `self.s.send(...)`
call in `pyvmdstream.py`, with its numeric parameters. -/
inductive Cmd : Type
  | axesOff
  | projectionOrthographic
  | displayResize (w h : Nat)
  | drawDeleteAll
  | drawMaterialsOn
  | drawMaterial (name : String)
  | drawColor (colorid : Int)
  | drawSphere (x y z : ℚ) (radius : ℚ) (resolution : Nat)
  | drawCylinder (x1 y1 z1 x2 y2 z2 : ℚ) (radius : ℚ) (resolution : Nat)
  | displayResetview
  | scaleBy (factor : ℚ)
  | colorScaleMethodRGB
  | colorChangeRGB (colorid : Int) (r g b : ℚ)
  deriving DecidableEq

/-- Result of a stretch of straight-line Python code that sends lines on the
socket: the lines sent (in order), and whether the code ran to completion
(`ok = false` means an exception was raised after `sent` had gone out). -/
structure Res : Type where
  sent : List Cmd
  ok : Bool
  deriving DecidableEq

/-- Sequential composition: if the first stretch raised, the second never
runs (its lines are not sent). -/
def Res.seq (r₁ r₂ : Res) : Res :=
  if r₁.ok then ⟨r₁.sent ++ r₂.sent, r₂.ok⟩ else r₁

/-- A stretch that raises before sending anything. -/
def Res.fail : Res := ⟨[], false⟩

/-- A Python `for x in xs:` loop whose body is a `Res`-producing stretch. -/
def loopList {α : Type} (f : α → Res) : List α → Res
  | [] => ⟨[], true⟩
  | x :: xs => (f x).seq (loopList f xs)

/-- Color selection shared by the bond loop (lines 153-156) and the particle
loop (lines 166-169) of `draw_atomic`:

    if color_list is not None:
        self.s.send("draw color %i\n"%(color_list[i]+VMDSTARTCOLOR))
    elif atomtypes is not None:
        self.s.send("draw color %i\n"%(atomtypes[i]))

`none` means the relevant indexing raised before the send. -/
def colorCmds (color_list : Option (List Int)) (atomtypes : Option (List Int))
    (i : Int) : Option (List Cmd) :=
  match color_list with
  | some cl => (pyIndex cl i).map (fun c => [Cmd.drawColor (c + VMDSTARTCOLOR)])
  | none =>
    match atomtypes with
    | some ts => (pyIndex ts i).map (fun t => [Cmd.drawColor t])
    | none => some []

/-- Radius selection shared by the bond loop (lines 157-162) and the particle
loop (lines 171-176) of `draw_atomic`:

    if radii is not None and atomtypes is not None:
        this_radius = radii[atomtypes[i]]
    elif radius_list is not None:
        this_radius = radius_list[i]
    else:
        this_radius = default_radius

`none` means the indexing raised. -/
def thisRadius (radii : Option (List ℚ)) (atomtypes : Option (List Int))
    (radius_list : Option (List ℚ)) (default_radius : ℚ) (i : Int) : Option ℚ :=
  match radii, atomtypes with
  | some rs, some ts => (pyIndex ts i).bind (fun t => pyIndex rs t)
  | _, _ =>
    match radius_list with
    | some rl => pyIndex rl i
    | none => some default_radius

/-- Body of the bond loop of `draw_atomic` (lines 151-163) for one
`bond_list` entry `(i, j)`: color selection, radius selection, then one
cylinder between `configuration[i]` and `configuration[j]` with radius
`this_radius*cylinder_radius_fraction`. -/
def bondBody (configuration : List Vec3) (atomtypes : Option (List Int))
    (radii radius_list : Option (List ℚ)) (color_list : Option (List Int))
    (default_radius cylinder_radius_fraction : ℚ) (sphere_resolution : Nat)
    (pair : Int × Int) : Res :=
  match colorCmds color_list atomtypes pair.1 with
  | none => Res.fail
  | some cs =>
    match thisRadius radii atomtypes radius_list default_radius pair.1 with
    | none => ⟨cs, false⟩
    | some r =>
      match pyIndex configuration pair.1, pyIndex configuration pair.2 with
      | some a, some b =>
        ⟨cs ++ [Cmd.drawCylinder a.1 a.2.1 a.2.2 b.1 b.2.1 b.2.2
          (r * cylinder_radius_fraction) sphere_resolution], true⟩
      | _, _ => ⟨cs, false⟩

/-- Inner loop `for connecting_segments_type in connecting_segments_types:`
of `draw_atomic` (lines 180-182), run when `i+1 < natoms`.  Subscripting an
absent (`None`) `atomtypes` raises `TypeError`; the `and` is evaluated
short-circuit, exactly as in Python. -/
def connectSegs (configuration : List Vec3) (atomtypes : Option (List Int))
    (this_radius cylinder_radius_fraction : ℚ) (sphere_resolution : Nat)
    (i : Nat) : List Int → Res
  | [] => ⟨[], true⟩
  | t :: ts =>
    match atomtypes with
    | none => Res.fail
    | some ats =>
      match ats.get? i with
      | none => Res.fail
      | some ai =>
        if ai = t then
          match ats.get? (i + 1) with
          | none => Res.fail
          | some ai1 =>
            if ai1 = t then
              match configuration.get? i, configuration.get? (i + 1) with
              | some a, some b =>
                (Res.mk [Cmd.drawCylinder a.1 a.2.1 a.2.2 b.1 b.2.1 b.2.2
                    (this_radius * cylinder_radius_fraction) sphere_resolution] true).seq
                  (connectSegs configuration atomtypes this_radius
                    cylinder_radius_fraction sphere_resolution i ts)
              | _, _ => Res.fail
            else
              connectSegs configuration atomtypes this_radius
                cylinder_radius_fraction sphere_resolution i ts
        else
          connectSegs configuration atomtypes this_radius
            cylinder_radius_fraction sphere_resolution i ts

/-- Body of the particle loop `for i in range(len(configuration)):` of
`draw_atomic` (lines 165-182): color selection, radius selection, one sphere,
then the connecting-segments check against the next particle. -/
def particleBody (configuration : List Vec3) (atomtypes : Option (List Int))
    (radii radius_list : Option (List ℚ)) (color_list : Option (List Int))
    (default_radius : ℚ) (sphere_resolution : Nat)
    (connecting_segments_types : Option (List Int))
    (cylinder_radius_fraction : ℚ) (i : Nat) : Res :=
  match colorCmds color_list atomtypes (i : Int) with
  | none => Res.fail
  | some cs =>
    match thisRadius radii atomtypes radius_list default_radius (i : Int) with
    | none => ⟨cs, false⟩
    | some r =>
      match configuration.get? i with
      | none => ⟨cs, false⟩
      | some p =>
        let sphere := Cmd.drawSphere p.1 p.2.1 p.2.2 r sphere_resolution
        if i + 1 < configuration.length then
          match connecting_segments_types with
          | none => ⟨cs ++ [sphere], true⟩
          | some cst =>
            (Res.mk (cs ++ [sphere]) true).seq
              (connectSegs configuration atomtypes r cylinder_radius_fraction
                sphere_resolution i cst)
        else ⟨cs ++ [sphere], true⟩

/-- Lines 146-148 of `draw_atomic`: a given `color_value_list` overrides
`color_list` by `np.array(np.floor(color_value_list*VMDNCOLORS), dtype=int)`. -/
def effColorList (color_value_list : Option (List ℚ))
    (color_list : Option (List Int)) : Option (List Int) :=
  match color_value_list with
  | some cvl => some (cvl.map (fun c => Int.floor (c * (VMDNCOLORS : ℚ))))
  | none => color_list

/-- The six fixed setup lines of `draw_atomic` (lines 139-144). -/
def setupCmds : List Cmd :=
  [Cmd.axesOff, Cmd.projectionOrthographic, Cmd.displayResize 800 800,
   Cmd.drawDeleteAll, Cmd.drawMaterialsOn, Cmd.drawMaterial "HardPlastic"]

/-- `VMDStream.draw_atomic` (lines 101-187 of `pyvmdstream.py`).  Arguments
are in source order; the Python defaults are `atomtypes=None`,
`default_radius=0.5`, `radii=None`, `radius_list=None`, `color_list=None`,
`color_value_list=None`, `sphere_resolution=30`,
`connecting_segments_types=None`, `bond_list=None`,
`cylinder_radius_fraction=0.5`, `reset_view=True`. -/
def draw_atomic (configuration : List Vec3) (atomtypes : Option (List Int))
    (default_radius : ℚ) (radii : Option (List ℚ))
    (radius_list : Option (List ℚ)) (color_list : Option (List Int))
    (color_value_list : Option (List ℚ)) (sphere_resolution : Nat)
    (connecting_segments_types : Option (List Int))
    (bond_list : Option (List (Int × Int)))
    (cylinder_radius_fraction : ℚ) (reset_view : Bool) : Res :=
  let cl := effColorList color_value_list color_list
  let bonds : Res :=
    match bond_list with
    | none => ⟨[], true⟩
    | some bl =>
      loopList (bondBody configuration atomtypes radii radius_list cl
        default_radius cylinder_radius_fraction sphere_resolution) bl
  let particles : Res :=
    loopList (particleBody configuration atomtypes radii radius_list cl
      default_radius sphere_resolution connecting_segments_types
      cylinder_radius_fraction) (List.range configuration.length)
  let view : Res :=
    if reset_view then ⟨[Cmd.displayResetview, Cmd.scaleBy (13/10)], true⟩
    else ⟨[], true⟩
  (Res.mk setupCmds true).seq (bonds.seq (particles.seq view))

/-- `VMDStream.set_colorscale` (lines 189-211 of `pyvmdstream.py`).  The
matplotlib colormap object produced by `cmap_discretize(ncolors, colormap)`
is an external library value; it is modelled by the parameter `cmapEval`
mapping a fraction in `[0,1]` to the `(r,g,b)` triple `colors(frac)[:3]`.
With `colormap == ""` a single reset line is sent; otherwise one
`color change rgb` line per `i in range(ncolors)` with id `startcolorid+i`
(when `ncolors = 0` the loop body, including the division, never runs). -/
def set_colorscale (cmapEval : ℚ → ℚ × ℚ × ℚ) (colormap : String)
    (ncolors : Nat) (startcolorid : Int) : List Cmd :=
  if colormap = "" then [Cmd.colorScaleMethodRGB]
  else
    (List.range ncolors).map (fun (i : Nat) =>
      let cv := cmapEval ((i : ℚ) / (ncolors : ℚ))
      Cmd.colorChangeRGB (startcolorid + (i : Int)) cv.1 cv.2.1 cv.2.2)

/-! ## Session terminator (`vmdstop`) -/

/-- An observable action on the Python TCP socket object. -/
inductive SockEvent : Type
  | send (text : String)
  | close
  deriving DecidableEq

/-- `vmdstop` (lines 357-369 of `pyvmdstream.py`): `s.send("exit\n")` then
`s.close()`.  `history` is the trace of socket events the session performed
before the terminator was called (possibly empty: no draw call required). -/
def vmdstop (history : List SockEvent) : List SockEvent :=
  history ++ [SockEvent.send "exit\n", SockEvent.close]

/-! ## Session launcher retry loop (`vmdstart`) -/

/-- Outcome of one `s.connect(("127.0.0.1", port))` call: either it returns,
or it raises an exception carrying `errno`. -/
inductive ConnectOutcome : Type
  | success
  | raised (errno : Int)
  deriving DecidableEq

/-- The connect retry loop of `vmdstart` (lines 345-354 of `pyvmdstream.py`):

    for i in range(5):
        try:
            s.connect(("127.0.0.1",port))
        except Exception, e:
            if e.errno == 106 or e.errno == 56:
                break
            else:
                print e
        time.sleep(2)

`outcome k` is what the `k`-th (0-based) connect attempt does, `fuel` the
remaining iterations of `range(5)`, `i` the attempts already made, `printed`
the exceptions printed so far.  Returns the total number of connect attempts
made and the printed errnos; the socket is returned to the caller afterwards
in every case. -/
def connectLoop (outcome : Nat → ConnectOutcome) :
    Nat → Nat → List Int → Nat × List Int
  | 0, i, printed => (i, printed)
  | fuel + 1, i, printed =>
    match outcome i with
    | ConnectOutcome.success => connectLoop outcome fuel (i + 1) printed
    | ConnectOutcome.raised e =>
      if e = 106 ∨ e = 56 then (i + 1, printed)
      else connectLoop outcome fuel (i + 1) (printed ++ [e])

/-- The whole retry phase of `vmdstart`: `range(5)` starting with no attempt
made and nothing printed. -/
def vmdstartConnect (outcome : Nat → ConnectOutcome) : Nat × List Int :=
  connectLoop outcome 5 0 []

/-! ## Trajectory file reader (`load_xyzfile` in `examples/draw_example.py`)

A file is modelled as the list of its lines, each line by its list of
whitespace-separated tokens (`line.split()`); reaching the end of the list is
`readline` returning `""`.  Any present line is truthy for `while line:`
(a physical line always contains at least its newline). -/

/-- Value of a nonempty digit string. -/
def digitsToNat (cs : List Char) : Nat :=
  cs.foldl (fun n c => n * 10 + (c.toNat - 48)) 0

/-- Python `float(s)` on a token, for tokens of the decimal shape
`[+-] digits [. digits]` (scientific notation is not needed by the inputs
this development evaluates); anything else raises `ValueError` (`none`). -/
def pyFloatCore (cs : List Char) : Option ℚ :=
  let intPart := cs.takeWhile Char.isDigit
  let rest := cs.dropWhile Char.isDigit
  match rest with
  | [] => if intPart = [] then none else some (digitsToNat intPart : ℚ)
  | '.' :: frac =>
    if frac.all Char.isDigit ∧ (intPart ≠ [] ∨ frac ≠ []) then
      some ((digitsToNat intPart : ℚ) +
        (digitsToNat frac : ℚ) / ((10 : ℚ) ^ frac.length))
    else none
  | _ => none

/-- Python `float(s)`, with optional sign. -/
def pyFloat (s : String) : Option ℚ :=
  match s.toList with
  | '-' :: cs => (pyFloatCore cs).map Neg.neg
  | '+' :: cs => pyFloatCore cs
  | cs => pyFloatCore cs

/-- Python `int(s)`: optional sign followed by digits. -/
def pyInt (s : String) : Option Int :=
  match s.toList with
  | '-' :: cs =>
    if cs ≠ [] ∧ cs.all Char.isDigit then some (-(digitsToNat cs : Int)) else none
  | '+' :: cs =>
    if cs ≠ [] ∧ cs.all Char.isDigit then some (digitsToNat cs : Int) else none
  | cs =>
    if cs ≠ [] ∧ cs.all Char.isDigit then some (digitsToNat cs : Int) else none

/-- Python `line.split()`: split on runs of whitespace, no empty tokens. -/
def pySplit (s : String) : List String :=
  (s.split Char.isWhitespace).filter (fun t => t ≠ "")

/-- The lines `readline` yields from a text (the trailing chunk after a final
newline is the empty read at EOF, not a line). -/
def pyLines (s : String) : List String :=
  let parts := s.splitOn "\n"
  if parts.getLast? = some "" then parts.dropLast else parts

/-- One parsed frame of the trajectory: the rows of the `(N,3)` position
array, the `N` numeric atomtype labels, and the box-size array. -/
structure Frame : Type where
  configuration : List Vec3
  atomtypes : List Nat
  boxsize : List ℚ
  deriving DecidableEq

/-- Python `atomtype_label_list.index(t)` (first index of `t`). -/
def labelIndex (labels : List String) (t : String) : Nat :=
  match labels with
  | [] => 0
  | l :: ls => if l = t then 0 else labelIndex ls t + 1

/-- Lines 56-60 of `draw_example.py`: map an atomtype string to its numeric
label, appending a fresh label on first occurrence:

    if atomtype in atomtype_label_list:
        atomtype_numeric = atomtype_label_list.index(atomtype)
    else:
        atomtype_numeric = len(atomtype_label_list)
        atomtype_label_list.append(atomtype)
-/
def atomtypeNumeric (labels : List String) (t : String) : Nat × List String :=
  if t ∈ labels then (labelIndex labels t, labels)
  else (labels.length, labels ++ [t])

/-- Lines 50-66 of `draw_example.py`, one particle line: unpack
`atomid, atomtype, x, y, z = line.split()[:5]` (fewer than 5 tokens raises
`ValueError`), map the atomtype, parse the three coordinates as floats. -/
def parseParticleLine (labels : List String) (tokens : List String) :
    Option (Vec3 × Nat × List String) :=
  match tokens with
  | _atomid :: atomtype :: xs :: ys :: zs :: _ =>
    match pyFloat xs, pyFloat ys, pyFloat zs with
    | some x, some y, some z =>
      let r := atomtypeNumeric labels atomtype
      some ((x, y, z), r.1, r.2)
    | _, _, _ => none
  | _ => none

/-- The `for i in range(N):` loop of `load_xyzfile`: read and parse `n`
particle lines (`readline` at EOF yields `""`, whose split unpacks to fewer
than 5 names and raises).  Returns positions, numeric types, the grown label
list, and the remaining lines. -/
def parseParticles (labels : List String) (n : Nat)
    (lines : List (List String)) :
    Option (List Vec3 × List Nat × List String × List (List String)) :=
  match n with
  | 0 => some ([], [], labels, lines)
  | m + 1 =>
    match lines with
    | [] => none
    | l :: rest =>
      match parseParticleLine labels l with
      | none => none
      | some (pos, t, labels') =>
        (parseParticles labels' m rest).map
          (fun r => (pos :: r.1, t :: r.2.1, r.2.2.1, r.2.2.2))

/-- The box line `np.array(line.split(), dtype=float)`: every token parsed as
a float; a bad token raises.  `readline` at EOF gives `""`, so the token list
is empty and the box array is empty. -/
def parseBox : List String → Option (List ℚ)
  | [] => some []
  | t :: ts =>
    match pyFloat t, parseBox ts with
    | some v, some vs => some (v :: vs)
    | _, _ => none

/-- The `while line:` loop of `load_xyzfile` (lines 46-74 of
`draw_example.py`), entered after a truthy line was read: parse `n` particle
lines, then the box line (`readline` at EOF gives `""`, so
`np.array("".split(), dtype=float)` is the *empty* box array, and the loop
then ends), then read one more line — the next frame's header, used only for
its truthiness — and iterate.  `fuel` bounds the number of loop iterations;
every iteration that recurses consumes at least two lines, so any
`fuel > lines.length` never runs out. -/
def xyzFrames (n : Nat) : Nat → List String → List (List String) →
    Option (List Frame)
  | 0, _, _ => none
  | fuel + 1, labels, lines =>
    match parseParticles labels n lines with
    | none => none
    | some (conf, types, labels', rest) =>
      match rest with
      | [] => some [⟨conf, types, []⟩]
      | boxTokens :: rest' =>
        match parseBox boxTokens with
        | none => none
        | some box =>
          match rest' with
          | [] => some [⟨conf, types, box⟩]
          | _hdr :: rest'' =>
            (xyzFrames n fuel labels' rest'').map
              (fun fs => ⟨conf, types, box⟩ :: fs)

/-- First token of the first line, as the particle count `N`:
`N = int(line.split()[0])`.  A missing line or token raises `IndexError`, a
non-integer token raises `ValueError`, and a negative `N` makes
`np.zeros((N,3))` raise, all before any frame is produced. -/
def headerNat (header : List String) : Option Nat :=
  match header with
  | [] => none
  | tok :: _ =>
    match pyInt tok with
    | none => none
    | some n => if n < 0 then none else some n.toNat

/-- `load_xyzfile` of `examples/draw_example.py` on the token lines of the
file.  The three parallel result lists (`trajectory`, `atomtype_list`,
`boxsize_list`) are packaged as one list of `Frame`s. -/
def load_xyzfile (lines : List (List String)) : Option (List Frame) :=
  match lines with
  | [] => none
  | header :: rest =>
    match headerNat header with
    | none => none
    | some n => xyzFrames n (rest.length + 1) [] rest

/-! ## Observation helpers on commands and events -/

/-- Is this line a `draw color` command? -/
def isColorCmd : Cmd → Bool
  | Cmd.drawColor _ => true
  | _ => false

/-- Is this line a `draw sphere` command? -/
def isSphereCmd : Cmd → Bool
  | Cmd.drawSphere _ _ _ _ _ => true
  | _ => false

/-- Is this line a `draw cylinder` command? -/
def isCylinderCmd : Cmd → Bool
  | Cmd.drawCylinder _ _ _ _ _ _ _ _ => true
  | _ => false

/-- The color id carried by a `draw color` or `color change rgb` line. -/
def cmdColorId : Cmd → Int
  | Cmd.drawColor c => c
  | Cmd.colorChangeRGB c _ _ _ => c
  | _ => 0

/-- The radius carried by a cylinder line, if any. -/
def cylinderRadius : Cmd → Option ℚ
  | Cmd.drawCylinder _ _ _ _ _ _ r _ => some r
  | _ => none

/-- The errno printed (rather than breaking the loop) by the `k`-th connect
attempt, if any: a `raised` outcome whose errno is neither 106 nor 56. -/
def printFilter (outcome : Nat → ConnectOutcome) (k : Nat) : Option Int :=
  match outcome k with
  | ConnectOutcome.success => none
  | ConnectOutcome.raised e => if e = 106 ∨ e = 56 then none else some e

/-! ## Spec-side selection rules (for the precedence claim)

These two definitions follow the WORDS of the spec's design note — "continuous
color > discrete color > type-based color > none; per-type radius >
per-particle radius > default radius" — to be compared with what
`draw_atomic` actually emits.  Failed lookups are given the default value 0;
the comparison theorems only apply them where the code's lookups succeed. -/

/-- Radius the spec's precedence order picks for particle index `j`. -/
def specRadius (radii : Option (List ℚ)) (atomtypes : Option (List Int))
    (radius_list : Option (List ℚ)) (default_radius : ℚ) (j : Int) : ℚ :=
  match radii, atomtypes with
  | some rs, some ts => ((pyIndex ts j).bind (fun t => pyIndex rs t)).getD 0
  | _, _ =>
    match radius_list with
    | some rl => (pyIndex rl j).getD 0
    | none => default_radius

/-- Color-selection lines the spec's precedence order picks for particle
index `j` (ids as the code emits them: discrete ids offset by
`VMDSTARTCOLOR`, type ids bare). -/
def specColorSel (color_value_list : Option (List ℚ))
    (color_list : Option (List Int)) (atomtypes : Option (List Int))
    (j : Int) : List Cmd :=
  match color_value_list with
  | some cvl =>
    [Cmd.drawColor (Int.floor ((pyIndex cvl j).getD 0 * (VMDNCOLORS : ℚ)) + VMDSTARTCOLOR)]
  | none =>
    match color_list with
    | some cl => [Cmd.drawColor ((pyIndex cl j).getD 0 + VMDSTARTCOLOR)]
    | none =>
      match atomtypes with
      | some ts => [Cmd.drawColor ((pyIndex ts j).getD 0)]
      | none => []

/-! ## Structured well-formed trajectory inputs (for the round-trip claim) -/

/-- One particle line of the xyz format, as its five tokens. -/
structure PLine : Type where
  atomid : String
  atomtype : String
  xs : String
  ys : String
  zs : String
  deriving DecidableEq

/-- The token list of a particle line. -/
def plineTokens (p : PLine) : List String :=
  [p.atomid, p.atomtype, p.xs, p.ys, p.zs]

/-- The parsed position of a particle line. -/
def plinePos (p : PLine) : Vec3 :=
  ((pyFloat p.xs).getD 0, (pyFloat p.ys).getD 0, (pyFloat p.zs).getD 0)

/-- One frame block of the file: a header line, the particle lines, the box
line.  (After the first block the header's content is ignored by the reader;
only its presence keeps `while line:` going.) -/
structure Block : Type where
  header : List String
  particles : List PLine
  box : List String
  deriving DecidableEq

/-- The token lines of one block, header excluded. -/
def blockLines (b : Block) : List (List String) :=
  b.particles.map plineTokens ++ [b.box]

/-- The token lines of a whole trajectory file. -/
def renderBlocks : List Block → List (List String)
  | [] => []
  | b :: bs => b.header :: (blockLines b ++ renderBlocks bs)

/-- Well-formedness of one block for particle count `n`: `n` particle lines
whose coordinates parse as floats, and three box floats. -/
def wfBlock (n : Nat) (b : Block) : Prop :=
  b.particles.length = n
  ∧ (∀ p ∈ b.particles,
      (pyFloat p.xs).isSome ∧ (pyFloat p.ys).isSome ∧ (pyFloat p.zs).isSome)
  ∧ b.box.length = 3 ∧ ∀ t ∈ b.box, (pyFloat t).isSome

instance (n : Nat) (b : Block) : Decidable (wfBlock n b) := by
  unfold wfBlock; infer_instance

/-- Distinct strings of `ts` appended to `seen` in first-occurrence order
(the reader's `atomtype_label_list` after scanning `ts`). -/
def firstOcc (seen : List String) (ts : List String) : List String :=
  ts.foldl (fun acc t => if t ∈ acc then acc else acc ++ [t]) seen

/-- The numeric labels the reader assigns to a run of particle lines,
threading the label list. -/
def typesAux (seen : List String) : List PLine → List Nat
  | [] => []
  | p :: ps =>
    (atomtypeNumeric seen p.atomtype).1 ::
      typesAux (atomtypeNumeric seen p.atomtype).2 ps

/-- The atomtype strings of one block, in line order. -/
def blockTypes (b : Block) : List String :=
  b.particles.map PLine.atomtype

/-- The final label list of a parse of `bs`: all atomtype strings in
first-occurrence order. -/
def allTypeLabels (bs : List Block) : List String :=
  firstOcc [] (bs.flatMap blockTypes)

/-- The frame the reader is expected to produce from block `b`, numeric
types taken from the label list `labels`. -/
def frameOf (labels : List String) (b : Block) : Frame :=
  ⟨b.particles.map plinePos,
   b.particles.map (fun p => labelIndex labels p.atomtype),
   b.box.map (fun t => (pyFloat t).getD 0)⟩

/-- The frames of a parse of `b :: bs`, threading the label list block by
block (intermediate form used to run the induction). -/
def framesAux (seen : List String) : List Block → List Frame
  | [] => []
  | b :: bs =>
    ⟨b.particles.map plinePos, typesAux seen b.particles,
     b.box.map (fun t => (pyFloat t).getD 0)⟩ ::
      framesAux (firstOcc seen (blockTypes b)) bs

/-! ## Relation for the atom-id-independence claim -/

/-- Two post-header line lists that are identical except possibly in the
first token of each particle line.  For particle count `n`, the lines of the
tail cycle with period `n+2`: positions `0..n-1` of each period are particle
lines (may differ in token 0), position `n` is the box line and position
`n+1` the next frame's header line (must be identical). -/
def trajRel (n : Nat) (T₁ T₂ : List (List String)) : Prop :=
  T₁.length = T₂.length ∧
  ∀ k, k < T₁.length →
    if k % (n + 2) < n then
      (T₁.getD k []).length = (T₂.getD k []).length ∧
        (T₁.getD k []).drop 1 = (T₂.getD k []).drop 1
    else T₁.getD k [] = T₂.getD k []

instance (n : Nat) (T₁ T₂ : List (List String)) : Decidable (trajRel n T₁ T₂) := by
  unfold trajRel; infer_instance

/-! ## The concrete example input of the spec -/

/-- The spec's concrete test input. -/
def exampleText : String :=
  "3 header\n0 A 0 0 0\n1 B 1 0 0\n2 A 0 1 0\n10 10 10\n"

/-- The token lines of the concrete test input: the result of reading
`exampleText` line by line and splitting each line on whitespace (the
`readline` / `line.split()` tokenization that `pyLines` and `pySplit`
model; stated literally because `String.splitOn` does not reduce inside the
kernel). -/
def exampleTokens : List (List String) :=
  [["3", "header"], ["0", "A", "0", "0", "0"], ["1", "B", "1", "0", "0"],
   ["2", "A", "0", "1", "0"], ["10", "10", "10"]]

/-- The concrete test input as one structured block. -/
def exampleBlock : Block :=
  ⟨["3", "header"],
   [⟨"0", "A", "0", "0", "0"⟩, ⟨"1", "B", "1", "0", "0"⟩,
    ⟨"2", "A", "0", "1", "0"⟩],
   ["10", "10", "10"]⟩

/-! ## Helper lemmas -/

lemma Res.seq_sent (r₁ r₂ : Res) :
    (r₁.seq r₂).sent = r₁.sent ++ (if r₁.ok then r₂.sent else []) := by
  unfold Res.seq; split <;> simp_all

lemma Res.seq_ok (r₁ r₂ : Res) : (r₁.seq r₂).ok = (r₁.ok && r₂.ok) := by
  unfold Res.seq; split <;> simp_all

lemma loopList_ok_flatMap {α : Type} {f : α → Res} :
    ∀ {xs : List α}, (∀ x ∈ xs, (f x).ok = true) →
      loopList f xs = ⟨xs.flatMap (fun x => (f x).sent), true⟩ := by
  intro xs
  induction xs with
  | nil => intro _; rfl
  | cons x xs ih =>
    intro h
    have hx : (f x).ok = true := h x (List.mem_cons_self x xs)
    have hxs := ih (fun y hy => h y (List.mem_cons_of_mem x hy))
    simp only [loopList, hxs, Res.seq, hx, if_true]
    simp

lemma loopList_ok_mem {α : Type} {f : α → Res} :
    ∀ {xs : List α}, (loopList f xs).ok = true → ∀ x ∈ xs, (f x).ok = true := by
  intro xs
  induction xs with
  | nil => intro _ x hx; cases hx
  | cons y ys ih =>
    intro h x hx
    have hok : (f y).ok = true ∧ (loopList f ys).ok = true := by
      have := h
      simp only [loopList, Res.seq_ok, Bool.and_eq_true] at this
      exact this
    rcases List.mem_cons.1 hx with rfl | hmem
    · exact hok.1
    · exact ih hok.2 x hmem

lemma flatMap_eq_map_of {α β : Type} {l : List α} {f : α → List β} {g : α → β}
    (h : ∀ x ∈ l, f x = [g x]) : l.flatMap f = l.map g := by
  induction l with
  | nil => rfl
  | cons x xs ih =>
    simp only [List.flatMap_cons, List.map_cons, h x (List.mem_cons_self x xs),
      ih (fun y hy => h y (List.mem_cons_of_mem x hy))]
    rfl

lemma map_getD_range {α β : Type} (l : List α) (g : α → β) (d : α) :
    (List.range l.length).map (fun i => g (l.getD i d)) = l.map g := by
  induction l with
  | nil => rfl
  | cons a t ih =>
    rw [List.length_cons, List.range_succ_eq_map, List.map_cons, List.map_map]
    have hfun : ((fun i => g ((a :: t).getD i d)) ∘ Nat.succ)
        = fun i => g (t.getD i d) := by
      funext i; simp [Function.comp, List.getD_cons_succ]
    rw [hfun, ih]
    simp

lemma getElem?_eq_some_getD {α : Type} {l : List α} {i : Nat} (d : α)
    (h : i < l.length) : l[i]? = some (l.getD i d) := by
  rw [List.getElem?_eq_getElem h, List.getD_eq_getElem l d h]

lemma get?_eq_some_getD {α : Type} {l : List α} {i : Nat} (d : α)
    (h : i < l.length) : l.get? i = some (l.getD i d) := by
  rw [List.get?_eq_getElem?]
  exact getElem?_eq_some_getD d h

lemma pyIndex_natCast {α : Type} (l : List α) (i : Nat) :
    pyIndex l (i : Int) = l.get? i := by
  unfold pyIndex
  rw [if_pos (Int.natCast_nonneg i), Int.toNat_natCast]

/-! ## Claim C7: terminator sends exit exactly once, then closes -/

/-- Claim C7: for every session history, `vmdstop` appends exactly the two
events `send "exit\n"` then `close`: the literal `"exit\n"` is sent exactly
once, the send precedes the close, and this is independent of whether any
draw operation was ever performed. -/
theorem c7_exit_once (history : List SockEvent) :
    vmdstop history = history ++ [SockEvent.send "exit\n", SockEvent.close]
    ∧ ((vmdstop history).drop history.length).count (SockEvent.send "exit\n") = 1
    ∧ ((vmdstop history).drop history.length).get? 0 = some (SockEvent.send "exit\n")
    ∧ ((vmdstop history).drop history.length).get? 1 = some SockEvent.close := by
  refine ⟨rfl, ?_, ?_, ?_⟩ <;>
    · unfold vmdstop
      rw [List.drop_left]
      try decide

/-! ## Claim C5: set_colorscale line counts and color ids -/

/-- Claim C5: with the empty colormap name exactly one reset line is emitted;
with a non-empty name, exactly `ncolors` lines `color change rgb`, carrying
the consecutive ids `startcolorid .. startcolorid+ncolors-1` in order. -/
theorem c5_colorscale (cmapEval : ℚ → ℚ × ℚ × ℚ) (colormap : String)
    (ncolors : Nat) (startcolorid : Int) (hne : colormap ≠ "") :
    set_colorscale cmapEval "" ncolors startcolorid = [Cmd.colorScaleMethodRGB]
    ∧ set_colorscale cmapEval colormap ncolors startcolorid
        = (List.range ncolors).map (fun (i : Nat) =>
            let cv := cmapEval ((i : ℚ) / (ncolors : ℚ))
            Cmd.colorChangeRGB (startcolorid + (i : Int)) cv.1 cv.2.1 cv.2.2)
    ∧ (set_colorscale cmapEval colormap ncolors startcolorid).length = ncolors
    ∧ (set_colorscale cmapEval colormap ncolors startcolorid).map cmdColorId
        = (List.range ncolors).map (fun (i : Nat) => startcolorid + (i : Int)) := by
  refine ⟨rfl, ?_, ?_, ?_⟩ <;> simp [set_colorscale, hne, List.map_map, cmdColorId]

/-- Claim C5 witness: the theorem at `colormap = "jet"`, `ncolors = 3`,
`startcolorid = 33`, with a concrete colormap evaluation. -/
theorem c5_witness :
    set_colorscale (fun q => (q, q, q)) "" 3 33 = [Cmd.colorScaleMethodRGB]
    ∧ set_colorscale (fun q => (q, q, q)) "jet" 3 33
        = (List.range 3).map (fun (i : Nat) =>
            let cv := (fun (q : ℚ) => (q, q, q)) ((i : ℚ) / ((3 : Nat) : ℚ))
            Cmd.colorChangeRGB (33 + (i : Int)) cv.1 cv.2.1 cv.2.2)
    ∧ (set_colorscale (fun q => (q, q, q)) "jet" 3 33).length = 3
    ∧ (set_colorscale (fun q => (q, q, q)) "jet" 3 33).map cmdColorId
        = (List.range 3).map (fun (i : Nat) => 33 + (i : Int)) :=
  c5_colorscale (fun q => (q, q, q)) "jet" 3 33 (by decide)

/-! ## Claim C1: continuous colors override discrete colors -/

/-- Claim C1 (counterexample): with `color_value_list = [0.5]` the emitted
per-particle color line carries id `545 = floor(0.5*1024) + 33`, not
`floor(0.5*1024) = 512` as the claim states: the `VMDSTARTCOLOR = 33` offset
is applied on top of the floored value. -/
theorem c1_counterexample :
    (draw_atomic [((0 : ℚ), 0, 0)] none (1/2) none none (some [7]) (some [1/2])
        30 none none (1/2) true).sent.get? 6
      = some (Cmd.drawColor 545)
    ∧ (545 : Int) ≠ Int.floor ((1/2 : ℚ) * (VMDNCOLORS : ℚ)) := by
  constructor
  · simp [draw_atomic, effColorList, loopList, particleBody, colorCmds,
      thisRadius, pyIndex, Res.seq, setupCmds, VMDSTARTCOLOR]
    norm_num [VMDNCOLORS]
  · norm_num [VMDNCOLORS]

/-- Claim C1 (amended): when `color_value_list` is given, the whole output of
`draw_atomic` is independent of any `color_list` argument, and the color line
of iteration `i` of the particle loop carries the id
`floor(color_value_list[i] * VMDNCOLORS) + VMDSTARTCOLOR`. -/
theorem c1_amended_colorid (conf : List Vec3) (ats : Option (List Int))
    (dr : ℚ) (radii rl : Option (List ℚ)) (cl₁ cl₂ : Option (List Int))
    (cvl : List ℚ) (res : Nat) (cst : Option (List Int))
    (bl : Option (List (Int × Int))) (crf : ℚ) (rv : Bool) (i : Nat)
    (hi : i < conf.length) (hci : i < cvl.length) :
    draw_atomic conf ats dr radii rl cl₁ (some cvl) res cst bl crf rv
      = draw_atomic conf ats dr radii rl cl₂ (some cvl) res cst bl crf rv
    ∧ (particleBody conf ats radii rl (effColorList (some cvl) cl₁) dr res cst
        crf i).sent.head?
      = some (Cmd.drawColor
          (Int.floor (cvl.getD i 0 * (VMDNCOLORS : ℚ)) + VMDSTARTCOLOR)) := by
  constructor
  · rfl
  · have hv : cvl[i]? = some (cvl.getD i 0) := getElem?_eq_some_getD 0 hci
    have hcs : colorCmds (effColorList (some cvl) cl₁) ats (i : Int)
        = some [Cmd.drawColor
            (Int.floor (cvl.getD i 0 * (VMDNCOLORS : ℚ)) + VMDSTARTCOLOR)] := by
      show (pyIndex (cvl.map fun c => Int.floor (c * (VMDNCOLORS : ℚ)))
          (i : Int)).map (fun c => [Cmd.drawColor (c + VMDSTARTCOLOR)]) = _
      rw [pyIndex_natCast, List.get?_eq_getElem?, List.getElem?_map, hv]
      rfl
    have hp : conf.get? i = some (conf.getD i (0, 0, 0)) :=
      get?_eq_some_getD (0, 0, 0) hi
    unfold particleBody
    rw [hcs]
    cases hr : thisRadius radii ats rl dr (i : Int) with
    | none => rfl
    | some r =>
      rw [hp]
      by_cases hlast : i + 1 < conf.length
      · simp only [hlast, if_true]
        cases cst with
        | none => rfl
        | some cstl => rw [Res.seq_sent]; rfl
      · simp only [hlast, if_false]
        rfl

/-- Claim C1 witness: the amended theorem at a concrete call. -/
theorem c1_witness :
    draw_atomic [((0 : ℚ), 0, 0)] none (1/2) none none (some [7])
        (some [1/2]) 30 none none (1/2) true
      = draw_atomic [((0 : ℚ), 0, 0)] none (1/2) none none (some [9])
        (some [1/2]) 30 none none (1/2) true
    ∧ (particleBody [((0 : ℚ), 0, 0)] none none none
        (effColorList (some [1/2]) (some [7])) (1/2) 30 none (1/2) 0).sent.head?
      = some (Cmd.drawColor
          (Int.floor (([(1/2 : ℚ)].getD 0 0) * (VMDNCOLORS : ℚ)) + VMDSTARTCOLOR)) :=
  c1_amended_colorid [((0 : ℚ), 0, 0)] none (1/2) none none (some [7])
    (some [9]) [1/2] 30 none none (1/2) true 0 (by decide) (by decide)

/-! ## Claim C3: positions-only call emits setup, spheres, view reset -/

lemma particleBody_plain (conf : List Vec3) (dr crf : ℚ) (res : Nat) (i : Nat)
    (p : Vec3) (hp : conf.get? i = some p) :
    particleBody conf none none none none dr res none crf i
      = ⟨[Cmd.drawSphere p.1 p.2.1 p.2.2 dr res], true⟩ := by
  unfold particleBody
  have hcs : colorCmds none none (i : Int) = some [] := rfl
  have hr : thisRadius none none none dr (i : Int) = some dr := rfl
  rw [hcs, hr, hp]
  by_cases h : i + 1 < conf.length <;> simp [h]

lemma particleLoop_plain (conf : List Vec3) (dr crf : ℚ) (res : Nat) :
    loopList (particleBody conf none none none none dr res none crf)
      (List.range conf.length)
      = ⟨conf.map (fun p => Cmd.drawSphere p.1 p.2.1 p.2.2 dr res), true⟩ := by
  have hbody : ∀ i ∈ List.range conf.length,
      particleBody conf none none none none dr res none crf i
        = ⟨[Cmd.drawSphere (conf.getD i (0, 0, 0)).1 (conf.getD i (0, 0, 0)).2.1
            (conf.getD i (0, 0, 0)).2.2 dr res], true⟩ := by
    intro i hi
    exact particleBody_plain conf dr crf res i _
      (get?_eq_some_getD (0, 0, 0) (List.mem_range.1 hi))
  have hok : ∀ i ∈ List.range conf.length,
      (particleBody conf none none none none dr res none crf i).ok = true := by
    intro i hi; rw [hbody i hi]
  rw [loopList_ok_flatMap hok]
  have hflat := @flatMap_eq_map_of Nat Cmd (List.range conf.length)
    (fun i => (particleBody conf none none none none dr res none crf i).sent)
    (fun i => Cmd.drawSphere (conf.getD i (0, 0, 0)).1
      (conf.getD i (0, 0, 0)).2.1 (conf.getD i (0, 0, 0)).2.2 dr res)
    (fun x hx => by
      show (particleBody conf none none none none dr res none crf x).sent
        = [Cmd.drawSphere (conf.getD x (0, 0, 0)).1 (conf.getD x (0, 0, 0)).2.1
            (conf.getD x (0, 0, 0)).2.2 dr res]
      rw [hbody x hx])
  rw [hflat]
  exact congrArg (fun l => Res.mk l true)
    (map_getD_range conf (fun p => Cmd.drawSphere p.1 p.2.1 p.2.2 dr res) (0, 0, 0))

/-- Claim C3: a call with only positions (all other arguments at their
Python defaults, `reset_view` true) sends exactly the 6 setup lines, then
one sphere line per particle in index order, then the 2 view-reset lines,
and runs to completion; in particular no color line and no cylinder line is
sent, and the total line count is `6 + N + 2`. -/
theorem c3_plain_draw (conf : List Vec3) :
    draw_atomic conf none (1/2) none none none none 30 none none (1/2) true
      = ⟨setupCmds
          ++ conf.map (fun p => Cmd.drawSphere p.1 p.2.1 p.2.2 (1/2) 30)
          ++ [Cmd.displayResetview, Cmd.scaleBy (13/10)], true⟩
    ∧ (draw_atomic conf none (1/2) none none none none 30 none none
        (1/2) true).sent.countP isColorCmd = 0
    ∧ (draw_atomic conf none (1/2) none none none none 30 none none
        (1/2) true).sent.countP isCylinderCmd = 0
    ∧ (draw_atomic conf none (1/2) none none none none 30 none none
        (1/2) true).sent.length = 6 + conf.length + 2 := by
  have hmain : draw_atomic conf none (1/2) none none none none 30 none none
      (1/2) true
      = ⟨setupCmds
          ++ conf.map (fun p => Cmd.drawSphere p.1 p.2.1 p.2.2 (1/2) 30)
          ++ [Cmd.displayResetview, Cmd.scaleBy (13/10)], true⟩ := by
    have hd : draw_atomic conf none (1/2) none none none none 30 none none
        (1/2) true
        = (Res.mk setupCmds true).seq ((Res.mk [] true).seq
            ((loopList (particleBody conf none none none none (1/2) 30 none
                (1/2)) (List.range conf.length)).seq
              (Res.mk [Cmd.displayResetview, Cmd.scaleBy (13/10)] true))) := rfl
    rw [hd, particleLoop_plain]
    simp [Res.seq]
  refine ⟨hmain, ?_, ?_, ?_⟩
  · rw [hmain]
    show (setupCmds ++ _ ++ _).countP isColorCmd = 0
    rw [List.countP_append, List.countP_append]
    have h1 : setupCmds.countP isColorCmd = 0 := by decide
    have h2 : List.countP isColorCmd [Cmd.displayResetview, Cmd.scaleBy (13/10)]
        = 0 := by
      simp [List.countP_cons, isColorCmd]
    have h3 : (conf.map (fun p => Cmd.drawSphere p.1 p.2.1 p.2.2 (1/2) 30)).countP
        isColorCmd = 0 := by
      rw [List.countP_eq_zero]
      intro c hc
      obtain ⟨p, _, rfl⟩ := List.mem_map.1 hc
      simp [isColorCmd]
    rw [h1, h3]
    exact h2
  · rw [hmain]
    show (setupCmds ++ _ ++ _).countP isCylinderCmd = 0
    rw [List.countP_append, List.countP_append]
    have h1 : setupCmds.countP isCylinderCmd = 0 := by decide
    have h2 : List.countP isCylinderCmd
        [Cmd.displayResetview, Cmd.scaleBy (13/10)] = 0 := by
      simp [List.countP_cons, isCylinderCmd]
    have h3 : (conf.map (fun p => Cmd.drawSphere p.1 p.2.1 p.2.2 (1/2) 30)).countP
        isCylinderCmd = 0 := by
      rw [List.countP_eq_zero]
      intro c hc
      obtain ⟨p, _, rfl⟩ := List.mem_map.1 hc
      simp [isCylinderCmd]
    rw [h1, h3]
    exact h2
  · rw [hmain]
    show (setupCmds ++ _ ++ _).length = 6 + conf.length + 2
    simp [setupCmds]
    omega

/-! ## Claim C9: connecting segments with absent atomtypes raise after the
first sphere -/

/-- Claim C9: a call with at least two particles, a non-empty
`connecting_segments_types` list, and `atomtypes = None` (all other
arguments plain) raises at the `atomtypes[i] == connecting_segments_type`
comparison on the first iteration (subscripting `None` is a `TypeError`),
after the 6 setup lines and the first sphere line have already been sent and
before anything else is sent. -/
theorem c9_missing_atomtypes (conf : List Vec3) (h2 : 2 ≤ conf.length)
    (dr crf : ℚ) (res : Nat) (t : Int) (ts : List Int) (rv : Bool) :
    draw_atomic conf none dr none none none none res (some (t :: ts)) none crf rv
      = ⟨setupCmds ++ [Cmd.drawSphere (conf.getD 0 (0, 0, 0)).1
          (conf.getD 0 (0, 0, 0)).2.1 (conf.getD 0 (0, 0, 0)).2.2 dr res],
          false⟩ := by
  rcases conf with _ | ⟨a, conf'⟩
  · simp at h2
  rcases conf' with _ | ⟨b, rest⟩
  · simp at h2
  have hpb : particleBody (a :: b :: rest) none none none none dr res
      (some (t :: ts)) crf 0
      = ⟨[Cmd.drawSphere a.1 a.2.1 a.2.2 dr res], false⟩ := by
    unfold particleBody
    have hcs : colorCmds none none ((0 : Nat) : Int) = some [] := rfl
    have hr : thisRadius none none none dr ((0 : Nat) : Int) = some dr := rfl
    rw [hcs, hr]
    have hlt : 0 + 1 < (a :: b :: rest).length := by simp
    simp only [List.get?, hlt, if_true]
    show (Res.mk ([] ++ [Cmd.drawSphere a.1 a.2.1 a.2.2 dr res]) true).seq
        (connectSegs (a :: b :: rest) none dr crf res 0 (t :: ts)) = _
    have hseg : connectSegs (a :: b :: rest) none dr crf res 0 (t :: ts)
        = Res.fail := rfl
    rw [hseg]
    simp [Res.seq, Res.fail]
  have hrange : List.range (a :: b :: rest).length
      = 0 :: List.map Nat.succ (List.range (rest.length + 1)) := by
    have : (a :: b :: rest).length = rest.length + 1 + 1 := by simp
    rw [this]
    exact List.range_succ_eq_map _
  have hloop : loopList (particleBody (a :: b :: rest) none none none none dr
      res (some (t :: ts)) crf) (List.range (a :: b :: rest).length)
      = ⟨[Cmd.drawSphere a.1 a.2.1 a.2.2 dr res], false⟩ := by
    rw [hrange]
    show (particleBody (a :: b :: rest) none none none none dr res
        (some (t :: ts)) crf 0).seq _ = _
    rw [hpb]
    simp [Res.seq]
  have hd : draw_atomic (a :: b :: rest) none dr none none none none res
      (some (t :: ts)) none crf rv
      = (Res.mk setupCmds true).seq ((Res.mk [] true).seq
          ((loopList (particleBody (a :: b :: rest) none none none none dr res
              (some (t :: ts)) crf) (List.range (a :: b :: rest).length)).seq
            (if rv then Res.mk [Cmd.displayResetview, Cmd.scaleBy (13/10)] true
             else Res.mk [] true))) := rfl
  rw [hd, hloop]
  simp [Res.seq]

/-- Claim C9 witness: the theorem at a concrete two-particle call. -/
theorem c9_witness :
    draw_atomic [((0 : ℚ), 0, 0), ((1 : ℚ), 0, 0)] none 1 none none none none
        30 (some [0]) none 1 true
      = ⟨setupCmds ++ [Cmd.drawSphere
          (([((0 : ℚ), 0, 0), ((1 : ℚ), 0, 0)].getD 0 (0, 0, 0)).1)
          (([((0 : ℚ), 0, 0), ((1 : ℚ), 0, 0)].getD 0 (0, 0, 0)).2.1)
          (([((0 : ℚ), 0, 0), ((1 : ℚ), 0, 0)].getD 0 (0, 0, 0)).2.2) 1 30],
          false⟩ :=
  c9_missing_atomtypes [((0 : ℚ), 0, 0), ((1 : ℚ), 0, 0)] (by decide) 1 1 30 0
    [] true

/-! ## Claim C6: the vmdstart connect retry loop -/

lemma connectLoop_spec (outcome : Nat → ConnectOutcome) :
    ∀ (fuel i : Nat) (acc : List Int),
      i ≤ (connectLoop outcome fuel i acc).1
      ∧ (connectLoop outcome fuel i acc).1 ≤ i + fuel
      ∧ (connectLoop outcome fuel i acc).2
          = acc ++ (List.range' i ((connectLoop outcome fuel i acc).1 - i)).filterMap
              (printFilter outcome)
      ∧ ((connectLoop outcome fuel i acc).1 < i + fuel →
          ∃ e, outcome ((connectLoop outcome fuel i acc).1 - 1)
              = ConnectOutcome.raised e ∧ (e = 106 ∨ e = 56)) := by
  intro fuel
  induction fuel with
  | zero =>
    intro i acc
    refine ⟨le_refl _, by simp [connectLoop], by simp [connectLoop], ?_⟩
    intro h
    exact absurd h (by simp [connectLoop])
  | succ fuel ih =>
    intro i acc
    cases ho : outcome i with
    | success =>
      have hcl : connectLoop outcome (fuel + 1) i acc
          = connectLoop outcome fuel (i + 1) acc := by
        simp [connectLoop, ho]
      rw [hcl]
      obtain ⟨h1, h2, h3, h4⟩ := ih (i + 1) acc
      refine ⟨by omega, by omega, ?_, fun hlt => h4 (by omega)⟩
      rw [h3]
      have hr : (connectLoop outcome fuel (i + 1) acc).1 - i
          = ((connectLoop outcome fuel (i + 1) acc).1 - (i + 1)) + 1 := by omega
      rw [hr, List.range'_succ, List.filterMap_cons]
      have hpf : printFilter outcome i = none := by simp [printFilter, ho]
      rw [hpf]
    | raised e =>
      by_cases hbreak : e = 106 ∨ e = 56
      · have hcl : connectLoop outcome (fuel + 1) i acc = (i + 1, acc) := by
          simp [connectLoop, ho, hbreak]
        rw [hcl]
        have hpf : printFilter outcome i = none := by
          simp [printFilter, ho, hbreak]
        refine ⟨by omega, by omega, ?_, ?_⟩
        · have hr : i + 1 - i = 1 := by omega
          simp [hr, List.range'_one, hpf]
        · intro _
          refine ⟨e, ?_, hbreak⟩
          have hr : i + 1 - 1 = i := by omega
          rw [hr, ho]
      · have hcl : connectLoop outcome (fuel + 1) i acc
            = connectLoop outcome fuel (i + 1) (acc ++ [e]) := by
          simp [connectLoop, ho, hbreak]
        rw [hcl]
        obtain ⟨h1, h2, h3, h4⟩ := ih (i + 1) (acc ++ [e])
        refine ⟨by omega, by omega, ?_, fun hlt => h4 (by omega)⟩
        rw [h3]
        have hr : (connectLoop outcome fuel (i + 1) (acc ++ [e])).1 - i
            = ((connectLoop outcome fuel (i + 1) (acc ++ [e])).1 - (i + 1)) + 1 := by
          omega
        rw [hr, List.range'_succ, List.filterMap_cons]
        have hpf : printFilter outcome i = some e := by
          simp [printFilter, ho, hbreak]
        rw [hpf, List.append_assoc]
        rfl

/-- Claim C6 (counterexample): a successful connect does NOT end the retry
loop.  With every attempt succeeding, the loop still performs all 5 connect
attempts: the first success (attempt 0) is followed by four more attempts,
refuting "a successful connect ... ends the retry loop". -/
theorem c6_counterexample :
    (vmdstartConnect (fun _ => ConnectOutcome.success)).1 = 5
    ∧ (fun _ => ConnectOutcome.success) 0 = ConnectOutcome.success
    ∧ ¬((vmdstartConnect (fun _ => ConnectOutcome.success)).1 ≤ 1) := by
  exact ⟨rfl, rfl, by decide⟩

/-- Claim C6 (amended): the connect is attempted at most 5 times; the loop
ends early only when an attempt raises an exception with errno 106 or 56
("already connected") — a successful connect does not itself break the loop —
and every other raised errno is merely printed (the printed list is exactly
the non-106/56 errnos of the attempts made, in order); the loop always
terminates and the socket is returned to the caller with no success signal. -/
theorem c6_amended_retry (outcome : Nat → ConnectOutcome) :
    (vmdstartConnect outcome).1 ≤ 5
    ∧ (vmdstartConnect outcome).2
        = (List.range (vmdstartConnect outcome).1).filterMap (printFilter outcome)
    ∧ (∀ e ∈ (vmdstartConnect outcome).2, e ≠ 106 ∧ e ≠ 56)
    ∧ ((vmdstartConnect outcome).1 < 5 →
        ∃ e, outcome ((vmdstartConnect outcome).1 - 1)
            = ConnectOutcome.raised e ∧ (e = 106 ∨ e = 56)) := by
  obtain ⟨h1, h2, h3, h4⟩ := connectLoop_spec outcome 5 0 []
  have hv : vmdstartConnect outcome = connectLoop outcome 5 0 [] := rfl
  rw [hv]
  refine ⟨by omega, ?_, ?_, fun hlt => h4 (by omega)⟩
  · rw [h3, List.range_eq_range']
    simp
  · intro e he
    rw [h3] at he
    simp only [List.nil_append] at he
    obtain ⟨k, _, hpf⟩ := List.mem_filterMap.1 he
    unfold printFilter at hpf
    cases hk : outcome k with
    | success => rw [hk] at hpf; cases hpf
    | raised e' =>
      rw [hk] at hpf
      by_cases hb : e' = 106 ∨ e' = 56
      · simp [hb] at hpf
      · simp [hb] at hpf
        rw [← hpf]
        push_neg at hb
        exact hb

/-- Claim C6 witness: the amended theorem at an outcome sequence that always
raises errno 7. -/
theorem c6_witness :
    (vmdstartConnect (fun _ => ConnectOutcome.raised 7)).1 ≤ 5
    ∧ (vmdstartConnect (fun _ => ConnectOutcome.raised 7)).2
        = (List.range (vmdstartConnect (fun _ => ConnectOutcome.raised 7)).1).filterMap
            (printFilter (fun _ => ConnectOutcome.raised 7))
    ∧ (∀ e ∈ (vmdstartConnect (fun _ => ConnectOutcome.raised 7)).2,
        e ≠ 106 ∧ e ≠ 56)
    ∧ ((vmdstartConnect (fun _ => ConnectOutcome.raised 7)).1 < 5 →
        ∃ e, (fun _ => ConnectOutcome.raised 7)
            ((vmdstartConnect (fun _ => ConnectOutcome.raised 7)).1 - 1)
            = ConnectOutcome.raised e ∧ (e = 106 ∨ e = 56)) :=
  c6_amended_retry (fun _ => ConnectOutcome.raised 7)

/-! ## Claim C8: one cylinder per bond_list entry -/

lemma draw_atomic_some_bonds (conf : List Vec3) (ats : Option (List Int))
    (dr : ℚ) (radii rl : Option (List ℚ)) (cl : Option (List Int))
    (cvl : Option (List ℚ)) (res : Nat) (cst : Option (List Int))
    (bl : List (Int × Int)) (crf : ℚ) (rv : Bool) :
    draw_atomic conf ats dr radii rl cl cvl res cst (some bl) crf rv
      = (Res.mk setupCmds true).seq
          ((loopList (bondBody conf ats radii rl (effColorList cvl cl) dr crf
              res) bl).seq
            ((loopList (particleBody conf ats radii rl (effColorList cvl cl)
                dr res cst crf) (List.range conf.length)).seq
              (if rv then Res.mk [Cmd.displayResetview, Cmd.scaleBy (13/10)] true
               else Res.mk [] true))) := rfl

lemma colorCmds_shape {cl ats : Option (List Int)} {i : Int} {cs : List Cmd}
    (h : colorCmds cl ats i = some cs) :
    cs = [] ∨ ∃ c, cs = [Cmd.drawColor c] := by
  cases cl with
  | some l =>
    cases hp : pyIndex l i with
    | none => simp [colorCmds, hp] at h
    | some c =>
      simp [colorCmds, hp] at h
      subst h
      exact Or.inr ⟨c + VMDSTARTCOLOR, rfl⟩
  | none =>
    cases ats with
    | some ts =>
      cases hp : pyIndex ts i with
      | none => simp [colorCmds, hp] at h
      | some t =>
        simp [colorCmds, hp] at h
        subst h
        exact Or.inr ⟨t, rfl⟩
    | none =>
      simp [colorCmds] at h
      subst h
      exact Or.inl rfl

lemma colorCmds_countP_cyl {cl ats : Option (List Int)} {i : Int}
    {cs : List Cmd} (h : colorCmds cl ats i = some cs) :
    cs.countP isCylinderCmd = 0 := by
  rcases colorCmds_shape h with rfl | ⟨c, rfl⟩
  · rfl
  · simp [List.countP_cons, isCylinderCmd]

lemma bondBody_ok_sent {conf : List Vec3} {ats : Option (List Int)}
    {radii rl : Option (List ℚ)} {cl : Option (List Int)} {dr crf : ℚ}
    {res : Nat} {p : Int × Int}
    (h : (bondBody conf ats radii rl cl dr crf res p).ok = true) :
    ∃ cs r a b, colorCmds cl ats p.1 = some cs
      ∧ thisRadius radii ats rl dr p.1 = some r
      ∧ pyIndex conf p.1 = some a ∧ pyIndex conf p.2 = some b
      ∧ (bondBody conf ats radii rl cl dr crf res p).sent
          = cs ++ [Cmd.drawCylinder a.1 a.2.1 a.2.2 b.1 b.2.1 b.2.2 (r * crf)
              res] := by
  cases hcs : colorCmds cl ats p.1 with
  | none =>
    exfalso
    have heq : bondBody conf ats radii rl cl dr crf res p = Res.fail := by
      unfold bondBody; rw [hcs]
    rw [heq] at h; cases h
  | some cs =>
    cases hr : thisRadius radii ats rl dr p.1 with
    | none =>
      exfalso
      have heq : bondBody conf ats radii rl cl dr crf res p = ⟨cs, false⟩ := by
        unfold bondBody; rw [hcs, hr]
      rw [heq] at h; cases h
    | some r =>
      cases ha : pyIndex conf p.1 with
      | none =>
        exfalso
        have heq : bondBody conf ats radii rl cl dr crf res p = ⟨cs, false⟩ := by
          unfold bondBody; rw [hcs, hr, ha]
        rw [heq] at h; cases h
      | some a =>
        cases hb : pyIndex conf p.2 with
        | none =>
          exfalso
          have heq : bondBody conf ats radii rl cl dr crf res p
              = ⟨cs, false⟩ := by
            unfold bondBody; rw [hcs, hr, ha, hb]
          rw [heq] at h; cases h
        | some b =>
          have heq : bondBody conf ats radii rl cl dr crf res p
              = ⟨cs ++ [Cmd.drawCylinder a.1 a.2.1 a.2.2 b.1 b.2.1 b.2.2
                  (r * crf) res], true⟩ := by
            unfold bondBody; rw [hcs, hr, ha, hb]
          exact ⟨cs, r, a, b, rfl, rfl, rfl, rfl, by rw [heq]⟩

lemma bondBody_ok_cylCount {conf : List Vec3} {ats : Option (List Int)}
    {radii rl : Option (List ℚ)} {cl : Option (List Int)} {dr crf : ℚ}
    {res : Nat} {p : Int × Int}
    (h : (bondBody conf ats radii rl cl dr crf res p).ok = true) :
    (bondBody conf ats radii rl cl dr crf res p).sent.countP isCylinderCmd
      = 1 := by
  obtain ⟨cs, r, a, b, hcs, _, _, _, hsent⟩ := bondBody_ok_sent h
  rw [hsent, List.countP_append, colorCmds_countP_cyl hcs]
  simp [List.countP_cons, isCylinderCmd]

lemma countP_flatMap_ones {α : Type} {l : List α} {g : α → List Cmd}
    (h : ∀ x ∈ l, (g x).countP isCylinderCmd = 1) :
    (l.flatMap g).countP isCylinderCmd = l.length := by
  induction l with
  | nil => rfl
  | cons x xs ih =>
    rw [List.flatMap_cons, List.countP_append,
      h x (List.mem_cons_self x xs),
      ih (fun y hy => h y (List.mem_cons_of_mem x hy))]
    simp
    omega

/-- Claim C8: whenever the bond loop runs to completion, the output of
`draw_atomic` begins with the 6 setup lines followed by the bond-loop lines,
which contain exactly one cylinder line per `bond_list` entry (between the
two indexed particle positions, after that entry's color line if any); the
bond-loop lines are given by an expression in which
`connecting_segments_types` does not occur, so their cylinder count is
unaffected by that setting. -/
theorem c8_bond_cylinders (conf : List Vec3) (ats : Option (List Int))
    (dr : ℚ) (radii rl : Option (List ℚ)) (cl : Option (List Int))
    (cvl : Option (List ℚ)) (res : Nat) (cst : Option (List Int))
    (bl : List (Int × Int)) (crf : ℚ) (rv : Bool)
    (hok : (loopList (bondBody conf ats radii rl (effColorList cvl cl) dr crf
        res) bl).ok = true) :
    ∃ rest,
      (draw_atomic conf ats dr radii rl cl cvl res cst (some bl) crf rv).sent
        = setupCmds
          ++ bl.flatMap (fun p => (bondBody conf ats radii rl
              (effColorList cvl cl) dr crf res p).sent)
          ++ rest
      ∧ (bl.flatMap (fun p => (bondBody conf ats radii rl (effColorList cvl cl)
          dr crf res p).sent)).countP isCylinderCmd = bl.length
      ∧ ∀ p ∈ bl, ((bondBody conf ats radii rl (effColorList cvl cl) dr crf
          res p).sent).countP isCylinderCmd = 1 := by
  have hmem := loopList_ok_mem hok
  have hone : ∀ p ∈ bl, ((bondBody conf ats radii rl (effColorList cvl cl) dr
      crf res p).sent).countP isCylinderCmd = 1 :=
    fun p hp => bondBody_ok_cylCount (hmem p hp)
  have hloop := loopList_ok_flatMap hmem
  refine ⟨((loopList (particleBody conf ats radii rl (effColorList cvl cl) dr
      res cst crf) (List.range conf.length)).seq
        (if rv then Res.mk [Cmd.displayResetview, Cmd.scaleBy (13/10)] true
         else Res.mk [] true)).sent, ?_, countP_flatMap_ones hone, hone⟩
  rw [draw_atomic_some_bonds, Res.seq_sent, Res.seq_sent, hloop]
  simp

/-- Claim C8 witness: the theorem at a two-particle call with one bond. -/
theorem c8_witness :
    ∃ rest,
      (draw_atomic [((0 : ℚ), 0, 0), ((1 : ℚ), 0, 0)] none 1 none none none
          none 30 none (some [((0 : Int), (1 : Int))]) 1 false).sent
        = setupCmds
          ++ ([((0 : Int), (1 : Int))]).flatMap (fun p =>
              (bondBody [((0 : ℚ), 0, 0), ((1 : ℚ), 0, 0)] none none none
                (effColorList none none) 1 1 30 p).sent)
          ++ rest
      ∧ (([((0 : Int), (1 : Int))]).flatMap (fun p =>
          (bondBody [((0 : ℚ), 0, 0), ((1 : ℚ), 0, 0)] none none none
            (effColorList none none) 1 1 30 p).sent)).countP isCylinderCmd
        = ([((0 : Int), (1 : Int))]).length
      ∧ ∀ p ∈ [((0 : Int), (1 : Int))],
          ((bondBody [((0 : ℚ), 0, 0), ((1 : ℚ), 0, 0)] none none none
            (effColorList none none) 1 1 30 p).sent).countP isCylinderCmd = 1 :=
  c8_bond_cylinders [((0 : ℚ), 0, 0), ((1 : ℚ), 0, 0)] none 1 none none none
    none 30 none [((0 : Int), (1 : Int))] 1 false (by decide)

/-! ## Claim C4: radius and color precedence -/

lemma pyIndex_map {α β : Type} (f : α → β) (l : List α) (j : Int) :
    pyIndex (l.map f) j = (pyIndex l j).map f := by
  unfold pyIndex
  rw [List.length_map]
  split
  · rw [List.get?_eq_getElem?, List.get?_eq_getElem?, List.getElem?_map]
  · split
    · rw [List.get?_eq_getElem?, List.get?_eq_getElem?, List.getElem?_map]
    · rfl

lemma thisRadius_spec {radii : Option (List ℚ)} {ats : Option (List Int)}
    {rl : Option (List ℚ)} {dr : ℚ} {j : Int} {r : ℚ}
    (h : thisRadius radii ats rl dr j = some r) :
    r = specRadius radii ats rl dr j := by
  rcases radii with _ | rs <;> rcases ats with _ | ts <;>
    rcases rl with _ | rlist <;>
    simp [thisRadius, specRadius] at h ⊢ <;> simp [h]

lemma colorCmds_spec {cvl : Option (List ℚ)} {cl ats : Option (List Int)}
    {j : Int} {cs : List Cmd}
    (h : colorCmds (effColorList cvl cl) ats j = some cs) :
    cs = specColorSel cvl cl ats j := by
  cases cvl with
  | some values =>
    have heff : effColorList (some values) cl
        = some (values.map (fun c => Int.floor (c * (VMDNCOLORS : ℚ)))) := rfl
    rw [heff] at h
    cases hp : pyIndex values j with
    | none => simp [colorCmds, pyIndex_map, hp] at h
    | some v =>
      simp [colorCmds, pyIndex_map, hp] at h
      subst h
      simp [specColorSel, hp]
  | none =>
    have heff : effColorList none cl = cl := rfl
    rw [heff] at h
    cases cl with
    | some l =>
      cases hp : pyIndex l j with
      | none => simp [colorCmds, hp] at h
      | some c =>
        simp [colorCmds, hp] at h
        subst h
        simp [specColorSel, hp]
    | none =>
      cases ats with
      | some ts =>
        cases hp : pyIndex ts j with
        | none => simp [colorCmds, hp] at h
        | some t =>
          simp [colorCmds, hp] at h
          subst h
          simp [specColorSel, hp]
      | none =>
        simp [colorCmds] at h
        subst h
        simp [specColorSel]

lemma connectSegs_sent_cyl {conf : List Vec3} {ats : Option (List Int)}
    {r crf : ℚ} {res : Nat} {i : Nat} :
    ∀ cst : List Int, ∀ c ∈ (connectSegs conf ats r crf res i cst).sent,
      ∃ x1 y1 z1 x2 y2 z2,
        c = Cmd.drawCylinder x1 y1 z1 x2 y2 z2 (r * crf) res := by
  intro cst
  induction cst with
  | nil => intro c hc; cases hc
  | cons t ts ih =>
    intro c hc
    cases ats with
    | none =>
      have heq : connectSegs conf none r crf res i (t :: ts) = Res.fail := by
        simp [connectSegs]
      rw [heq] at hc; cases hc
    | some l =>
      cases hai : l[i]? with
      | none =>
        have heq : connectSegs conf (some l) r crf res i (t :: ts)
            = Res.fail := by
          simp [connectSegs, List.get?_eq_getElem?, hai]
        rw [heq] at hc; cases hc
      | some ai =>
        by_cases hait : ai = t
        · cases hai1 : l[i + 1]? with
          | none =>
            have heq : connectSegs conf (some l) r crf res i (t :: ts)
                = Res.fail := by
              simp [connectSegs, List.get?_eq_getElem?, hai, hait, hai1]
            rw [heq] at hc; cases hc
          | some ai1 =>
            by_cases hai1t : ai1 = t
            · cases hca : conf[i]? with
              | none =>
                have heq : connectSegs conf (some l) r crf res i (t :: ts)
                    = Res.fail := by
                  simp [connectSegs, List.get?_eq_getElem?, hai, hait, hai1,
                    hai1t, hca]
                rw [heq] at hc; cases hc
              | some a =>
                cases hcb : conf[i + 1]? with
                | none =>
                  have heq : connectSegs conf (some l) r crf res i (t :: ts)
                      = Res.fail := by
                    simp [connectSegs, List.get?_eq_getElem?, hai, hait, hai1,
                      hai1t, hca, hcb]
                  rw [heq] at hc; cases hc
                | some b =>
                  have heq : connectSegs conf (some l) r crf res i (t :: ts)
                      = (Res.mk [Cmd.drawCylinder a.1 a.2.1 a.2.2 b.1 b.2.1
                          b.2.2 (r * crf) res] true).seq
                          (connectSegs conf (some l) r crf res i ts) := by
                    simp [connectSegs, List.get?_eq_getElem?, hai, hait, hai1,
                      hai1t, hca, hcb]
                  rw [heq, Res.seq_sent] at hc
                  simp only [List.mem_append] at hc
                  rcases hc with h1 | h2
                  · rcases List.mem_singleton.1 h1 with rfl
                    exact ⟨a.1, a.2.1, a.2.2, b.1, b.2.1, b.2.2, rfl⟩
                  · have h2' : c ∈ (connectSegs conf (some l) r crf res i
                        ts).sent := by
                      simpa using h2
                    exact ih c h2'
            · have heq : connectSegs conf (some l) r crf res i (t :: ts)
                  = connectSegs conf (some l) r crf res i ts := by
                simp [connectSegs, List.get?_eq_getElem?, hai, hait, hai1,
                  hai1t]
              rw [heq] at hc
              exact ih c hc
        · have heq : connectSegs conf (some l) r crf res i (t :: ts)
              = connectSegs conf (some l) r crf res i ts := by
            simp [connectSegs, List.get?_eq_getElem?, hai, hait]
          rw [heq] at hc
          exact ih c hc

lemma particleBody_ok_sent {conf : List Vec3} {ats : Option (List Int)}
    {radii rl : Option (List ℚ)} {cl : Option (List Int)} {dr crf : ℚ}
    {res : Nat} {cst : Option (List Int)} {i : Nat}
    (hok : (particleBody conf ats radii rl cl dr res cst crf i).ok = true)
    (hi : i < conf.length) :
    ∃ cs r segs, colorCmds cl ats (i : Int) = some cs
      ∧ thisRadius radii ats rl dr (i : Int) = some r
      ∧ (particleBody conf ats radii rl cl dr res cst crf i).sent
          = cs ++ [Cmd.drawSphere (conf.getD i (0, 0, 0)).1
              (conf.getD i (0, 0, 0)).2.1 (conf.getD i (0, 0, 0)).2.2 r res]
            ++ segs
      ∧ ∀ c ∈ segs, ∃ x1 y1 z1 x2 y2 z2,
          c = Cmd.drawCylinder x1 y1 z1 x2 y2 z2 (r * crf) res := by
  have hp : conf.get? i = some (conf.getD i (0, 0, 0)) :=
    get?_eq_some_getD (0, 0, 0) hi
  cases hcs : colorCmds cl ats (i : Int) with
  | none =>
    exfalso
    have heq : particleBody conf ats radii rl cl dr res cst crf i
        = Res.fail := by
      unfold particleBody; rw [hcs]
    rw [heq] at hok; cases hok
  | some cs =>
    cases hr : thisRadius radii ats rl dr (i : Int) with
    | none =>
      exfalso
      have heq : particleBody conf ats radii rl cl dr res cst crf i
          = ⟨cs, false⟩ := by
        unfold particleBody; rw [hcs, hr]
      rw [heq] at hok; cases hok
    | some r =>
      by_cases hlast : i + 1 < conf.length
      · cases cst with
        | none =>
          refine ⟨cs, r, [], rfl, rfl, ?_, by intro c hc; cases hc⟩
          have heq : particleBody conf ats radii rl cl dr res none crf i
              = ⟨cs ++ [Cmd.drawSphere (conf.getD i (0, 0, 0)).1
                  (conf.getD i (0, 0, 0)).2.1 (conf.getD i (0, 0, 0)).2.2 r
                  res], true⟩ := by
            unfold particleBody
            rw [hcs, hr, hp]
            simp [hlast]
          rw [heq]
          simp
        | some cstl =>
          have heq : particleBody conf ats radii rl cl dr res (some cstl) crf i
              = (Res.mk (cs ++ [Cmd.drawSphere (conf.getD i (0, 0, 0)).1
                  (conf.getD i (0, 0, 0)).2.1 (conf.getD i (0, 0, 0)).2.2 r
                  res]) true).seq
                  (connectSegs conf ats r crf res i cstl) := by
            unfold particleBody
            rw [hcs, hr, hp]
            simp [hlast]
          refine ⟨cs, r, (connectSegs conf ats r crf res i cstl).sent, rfl, rfl,
            ?_, fun c hc => connectSegs_sent_cyl cstl c hc⟩
          rw [heq, Res.seq_sent]
          simp
      · refine ⟨cs, r, [], rfl, rfl, ?_, by intro c hc; cases hc⟩
        have heq : particleBody conf ats radii rl cl dr res cst crf i
            = ⟨cs ++ [Cmd.drawSphere (conf.getD i (0, 0, 0)).1
                (conf.getD i (0, 0, 0)).2.1 (conf.getD i (0, 0, 0)).2.2 r
                res], true⟩ := by
          unfold particleBody
          rw [hcs, hr, hp]
          simp [hlast]
        rw [heq]
        simp

/-- Claim C4: in every call, both the particle loop and the bond loop select
the radius by the precedence per-type radius (`radii[atomtypes[i]]`, needing
both `radii` and `atomtypes`) > per-particle radius (`radius_list[i]`) >
`default_radius` — the emitted sphere carries exactly that radius, and every
cylinder of the iteration carries it scaled by `cylinder_radius_fraction` —
and select the color lines by the precedence continuous color value >
discrete color id > type-based color > no color line (`specRadius` and
`specColorSel` spell these precedence orders in the spec's words). -/
theorem c4_precedence (conf : List Vec3) (ats : Option (List Int)) (dr : ℚ)
    (radii rl : Option (List ℚ)) (cl : Option (List Int))
    (cvl : Option (List ℚ)) (res : Nat) (cst : Option (List Int)) (crf : ℚ)
    (i : Nat) (bi bj : Int) (hi : i < conf.length)
    (hok : (particleBody conf ats radii rl (effColorList cvl cl) dr res cst
        crf i).ok = true)
    (hbok : (bondBody conf ats radii rl (effColorList cvl cl) dr crf res
        (bi, bj)).ok = true) :
    (particleBody conf ats radii rl (effColorList cvl cl) dr res cst
        crf i).sent.filter isSphereCmd
      = [Cmd.drawSphere (conf.getD i (0, 0, 0)).1 (conf.getD i (0, 0, 0)).2.1
          (conf.getD i (0, 0, 0)).2.2 (specRadius radii ats rl dr (i : Int))
          res]
    ∧ (∀ c ∈ (particleBody conf ats radii rl (effColorList cvl cl) dr res cst
        crf i).sent, ∀ q, cylinderRadius c = some q →
          q = specRadius radii ats rl dr (i : Int) * crf)
    ∧ (particleBody conf ats radii rl (effColorList cvl cl) dr res cst
        crf i).sent.filter isColorCmd = specColorSel cvl cl ats (i : Int)
    ∧ ((bondBody conf ats radii rl (effColorList cvl cl) dr crf res
        (bi, bj)).sent.filter isCylinderCmd).map cylinderRadius
      = [some (specRadius radii ats rl dr bi * crf)]
    ∧ (bondBody conf ats radii rl (effColorList cvl cl) dr crf res
        (bi, bj)).sent.filter isColorCmd = specColorSel cvl cl ats bi := by
  obtain ⟨cs, r, segs, hcs, hr, hsent, hsegs⟩ := particleBody_ok_sent hok hi
  obtain ⟨bcs, br, ba, bb, hbcs, hbr, hba, hbb, hbsent⟩ := bondBody_ok_sent hbok
  have hcs_filter_sphere : cs.filter isSphereCmd = [] := by
    rcases colorCmds_shape hcs with rfl | ⟨c, rfl⟩ <;>
      simp [List.filter, isSphereCmd]
  have hcs_filter_color : cs.filter isColorCmd = cs := by
    rcases colorCmds_shape hcs with rfl | ⟨c, rfl⟩ <;>
      simp [List.filter, isColorCmd]
  have hcs_filter_cyl : cs.filter isCylinderCmd = [] := by
    rcases colorCmds_shape hcs with rfl | ⟨c, rfl⟩ <;>
      simp [List.filter, isCylinderCmd]
  have hbcs_filter_color : bcs.filter isColorCmd = bcs := by
    rcases colorCmds_shape hbcs with rfl | ⟨c, rfl⟩ <;>
      simp [List.filter, isColorCmd]
  have hbcs_filter_cyl : bcs.filter isCylinderCmd = [] := by
    rcases colorCmds_shape hbcs with rfl | ⟨c, rfl⟩ <;>
      simp [List.filter, isCylinderCmd]
  have hsegs_sphere : segs.filter isSphereCmd = [] := by
    rw [List.filter_eq_nil_iff]
    intro c hc
    obtain ⟨x1, y1, z1, x2, y2, z2, rfl⟩ := hsegs c hc
    simp [isSphereCmd]
  have hsegs_color : segs.filter isColorCmd = [] := by
    rw [List.filter_eq_nil_iff]
    intro c hc
    obtain ⟨x1, y1, z1, x2, y2, z2, rfl⟩ := hsegs c hc
    simp [isColorCmd]
  have hrspec := thisRadius_spec hr
  have hbrspec := thisRadius_spec hbr
  refine ⟨?_, ?_, ?_, ?_, ?_⟩
  · rw [hsent, List.filter_append, List.filter_append, hcs_filter_sphere,
      hsegs_sphere, hrspec]
    simp [List.filter, isSphereCmd]
  · intro c hc q hq
    rw [hsent] at hc
    rcases List.mem_append.1 hc with hc' | hc2
    · rcases List.mem_append.1 hc' with hc1 | hcsph
      · rcases colorCmds_shape hcs with rfl | ⟨cc, rfl⟩
        · cases hc1
        · rcases List.mem_singleton.1 hc1 with rfl
          simp [cylinderRadius] at hq
      · rcases List.mem_singleton.1 hcsph with rfl
        simp [cylinderRadius] at hq
    · obtain ⟨x1, y1, z1, x2, y2, z2, rfl⟩ := hsegs c hc2
      simp [cylinderRadius] at hq
      rw [← hq, hrspec]
  · rw [hsent, List.filter_append, List.filter_append, hcs_filter_color,
      hsegs_color, colorCmds_spec hcs]
    simp [List.filter, isColorCmd]
  · rw [hbsent, List.filter_append, hbcs_filter_cyl, hbrspec]
    simp [List.filter, isCylinderCmd, cylinderRadius]
  · rw [hbsent, List.filter_append, hbcs_filter_color, colorCmds_spec hbcs]
    simp [List.filter, isColorCmd]

/-- Claim C4 witness: the theorem at a concrete call exercising the per-type
radius branch (both `radii` and `atomtypes` given, `radius_list` also given
but shadowed) and the type-based color branch. -/
theorem c4_witness :
    (particleBody [((0 : ℚ), 0, 0), ((1 : ℚ), 0, 0)] (some [0, 1])
        (some [2, 3]) (some [5, 5]) (effColorList none none) 1 30 none
        1 0).sent.filter isSphereCmd
      = [Cmd.drawSphere (([((0 : ℚ), 0, 0), ((1 : ℚ), 0, 0)].getD 0
          (0, 0, 0)).1) (([((0 : ℚ), 0, 0), ((1 : ℚ), 0, 0)].getD 0
          (0, 0, 0)).2.1) (([((0 : ℚ), 0, 0), ((1 : ℚ), 0, 0)].getD 0
          (0, 0, 0)).2.2)
          (specRadius (some [2, 3]) (some [0, 1]) (some [5, 5]) 1
            ((0 : Nat) : Int)) 30]
    ∧ (∀ c ∈ (particleBody [((0 : ℚ), 0, 0), ((1 : ℚ), 0, 0)] (some [0, 1])
        (some [2, 3]) (some [5, 5]) (effColorList none none) 1 30 none
        1 0).sent, ∀ q, cylinderRadius c = some q →
          q = specRadius (some [2, 3]) (some [0, 1]) (some [5, 5]) 1
            ((0 : Nat) : Int) * 1)
    ∧ (particleBody [((0 : ℚ), 0, 0), ((1 : ℚ), 0, 0)] (some [0, 1])
        (some [2, 3]) (some [5, 5]) (effColorList none none) 1 30 none
        1 0).sent.filter isColorCmd
      = specColorSel none none (some [0, 1]) ((0 : Nat) : Int)
    ∧ ((bondBody [((0 : ℚ), 0, 0), ((1 : ℚ), 0, 0)] (some [0, 1])
        (some [2, 3]) (some [5, 5]) (effColorList none none) 1 1 30
        (0, 1)).sent.filter isCylinderCmd).map cylinderRadius
      = [some (specRadius (some [2, 3]) (some [0, 1]) (some [5, 5]) 1 0 * 1)]
    ∧ (bondBody [((0 : ℚ), 0, 0), ((1 : ℚ), 0, 0)] (some [0, 1])
        (some [2, 3]) (some [5, 5]) (effColorList none none) 1 1 30
        (0, 1)).sent.filter isColorCmd
      = specColorSel none none (some [0, 1]) 0 :=
  c4_precedence [((0 : ℚ), 0, 0), ((1 : ℚ), 0, 0)] (some [0, 1]) 1
    (some [2, 3]) (some [5, 5]) none none 30 none 1 0 0 1 (by decide)
    (by decide) (by decide)

/-! ## Claim C10: the atom id token is never used -/

lemma parseParticleLine_congr (seen : List String) {a b : List String}
    (hlen : a.length = b.length) (htail : a.drop 1 = b.drop 1) :
    parseParticleLine seen a = parseParticleLine seen b := by
  cases a with
  | nil =>
    cases b with
    | nil => rfl
    | cons y ys => simp at hlen
  | cons x xs =>
    cases b with
    | nil => simp at hlen
    | cons y ys =>
      simp only [List.drop_one, List.tail_cons] at htail
      subst htail
      cases xs with
      | nil => rfl
      | cons t r1 =>
        cases r1 with
        | nil => rfl
        | cons u r2 =>
          cases r2 with
          | nil => rfl
          | cons v r3 =>
            cases r3 with
            | nil => rfl
            | cons w r4 => rfl

lemma parseParticles_congr :
    ∀ (m : Nat) (seen : List String) (T₁ T₂ : List (List String)),
      T₁.length = T₂.length →
      (∀ k, k < m → (T₁.getD k []).length = (T₂.getD k []).length
        ∧ (T₁.getD k []).drop 1 = (T₂.getD k []).drop 1) →
      (parseParticles seen m T₁ = none ∧ parseParticles seen m T₂ = none)
      ∨ ∃ c t l, parseParticles seen m T₁ = some (c, t, l, T₁.drop m)
          ∧ parseParticles seen m T₂ = some (c, t, l, T₂.drop m) := by
  intro m
  induction m with
  | zero =>
    intro seen T₁ T₂ _ _
    exact Or.inr ⟨[], [], seen, rfl, rfl⟩
  | succ m ih =>
    intro seen T₁ T₂ hlen hrel
    cases T₁ with
    | nil =>
      cases T₂ with
      | nil => exact Or.inl ⟨rfl, rfl⟩
      | cons l₂ rest₂ => simp at hlen
    | cons l₁ rest₁ =>
      cases T₂ with
      | nil => simp at hlen
      | cons l₂ rest₂ =>
        have h0 := hrel 0 (Nat.succ_pos m)
        have hline : parseParticleLine seen l₁ = parseParticleLine seen l₂ :=
          parseParticleLine_congr seen (by simpa using h0.1)
            (by simpa using h0.2)
        have hlen' : rest₁.length = rest₂.length := by simpa using hlen
        cases hpl : parseParticleLine seen l₂ with
        | none =>
          have h₁ : parseParticleLine seen l₁ = none := hline.trans hpl
          exact Or.inl ⟨by simp [parseParticles, h₁],
            by simp [parseParticles, hpl]⟩
        | some res =>
          obtain ⟨pos, t, labels'⟩ := res
          have h₁ : parseParticleLine seen l₁ = some (pos, t, labels') :=
            hline.trans hpl
          have hrel' : ∀ k, k < m →
              (rest₁.getD k []).length = (rest₂.getD k []).length
              ∧ (rest₁.getD k []).drop 1 = (rest₂.getD k []).drop 1 := by
            intro k hk
            have := hrel (k + 1) (by omega)
            simpa [List.getD_cons_succ] using this
          rcases ih labels' rest₁ rest₂ hlen' hrel' with ⟨hn₁, hn₂⟩
            | ⟨c, tt, ll, hs₁, hs₂⟩
          · exact Or.inl ⟨by simp [parseParticles, h₁, hn₁],
              by simp [parseParticles, hpl, hn₂]⟩
          · refine Or.inr ⟨pos :: c, t :: tt, ll, ?_, ?_⟩
            · simp [parseParticles, h₁, hs₁, List.drop_succ_cons]
            · simp [parseParticles, hpl, hs₂, List.drop_succ_cons]

lemma trajRel_drop {n : Nat} {T₁ T₂ : List (List String)}
    (h : trajRel n T₁ T₂) :
    trajRel n (T₁.drop (n + 2)) (T₂.drop (n + 2)) := by
  obtain ⟨hlen, hrel⟩ := h
  refine ⟨by simp [hlen], ?_⟩
  intro k hk
  have hk' : n + 2 + k < T₁.length := by
    rw [List.length_drop] at hk
    omega
  have hgd : ∀ (T : List (List String)),
      (T.drop (n + 2)).getD k [] = T.getD (n + 2 + k) [] := by
    intro T
    rw [List.getD_eq_getElem?_getD, List.getD_eq_getElem?_getD,
      List.getElem?_drop]
  have hmod : (n + 2 + k) % (n + 2) = k % (n + 2) := by
    have := Nat.add_mod_left (n + 2) k
    omega
  have := hrel (n + 2 + k) hk'
  rw [hmod] at this
  rw [hgd T₁, hgd T₂]
  exact this

lemma xyzFrames_congr :
    ∀ (fuel n : Nat) (seen : List String) (T₁ T₂ : List (List String)),
      trajRel n T₁ T₂ → xyzFrames n fuel seen T₁ = xyzFrames n fuel seen T₂ := by
  intro fuel
  induction fuel with
  | zero => intro n seen T₁ T₂ _; rfl
  | succ fuel ih =>
    intro n seen T₁ T₂ h
    obtain ⟨hlen, hrel⟩ := h
    have hrelp : ∀ k, k < n → (T₁.getD k []).length = (T₂.getD k []).length
        ∧ (T₁.getD k []).drop 1 = (T₂.getD k []).drop 1 := by
      intro k hk
      by_cases hkl : k < T₁.length
      · have hmod : k % (n + 2) = k := Nat.mod_eq_of_lt (by omega)
        have := hrel k hkl
        rw [hmod, if_pos hk] at this
        exact this
      · have h₁ : T₁.getD k [] = [] := List.getD_eq_default _ _ (by omega)
        have h₂ : T₂.getD k [] = [] := List.getD_eq_default _ _ (by omega)
        rw [h₁, h₂]
        exact ⟨rfl, rfl⟩
    rcases parseParticles_congr n seen T₁ T₂ hlen hrelp with ⟨hn₁, hn₂⟩
      | ⟨c, t, l, hs₁, hs₂⟩
    · simp [xyzFrames, hn₁, hn₂]
    · have hdlen : (T₁.drop n).length = (T₂.drop n).length := by simp [hlen]
      cases hd₁ : T₁.drop n with
      | nil =>
        have hd₂ : T₂.drop n = [] := by
          rw [hd₁] at hdlen
          exact List.length_eq_zero.1 hdlen.symm
        simp [xyzFrames, hs₁, hs₂, hd₁, hd₂]
      | cons box₁ r₁ =>
        obtain ⟨box₂, r₂, hd₂⟩ : ∃ b r, T₂.drop n = b :: r := by
          cases hdt : T₂.drop n with
          | nil => rw [hd₁, hdt] at hdlen; simp at hdlen
          | cons b r => exact ⟨b, r, rfl⟩
        have hnlt : n < T₁.length := by
          have := congrArg List.length hd₁
          rw [List.length_drop] at this
          simp at this
          omega
        have hbox : box₁ = box₂ := by
          have hmod : n % (n + 2) = n := Nat.mod_eq_of_lt (by omega)
          have hrn := hrel n hnlt
          rw [hmod, if_neg (lt_irrefl n)] at hrn
          have hb₁ : T₁.getD n [] = box₁ := by
            have h0 : T₁[n + 0]? = some box₁ := by
              rw [← List.getElem?_drop, hd₁]
              simp
            rw [List.getD_eq_getElem?_getD, show T₁[n]? = some box₁ by
              simpa using h0]
            rfl
          have hb₂ : T₂.getD n [] = box₂ := by
            have h0 : T₂[n + 0]? = some box₂ := by
              rw [← List.getElem?_drop, hd₂]
              simp
            rw [List.getD_eq_getElem?_getD, show T₂[n]? = some box₂ by
              simpa using h0]
            rfl
          rw [hb₁, hb₂] at hrn
          exact hrn
        subst hbox
        cases hbp : parseBox box₁ with
        | none => simp [xyzFrames, hs₁, hs₂, hd₁, hd₂, hbp]
        | some box =>
          have hrlen : r₁.length = r₂.length := by
            rw [hd₁, hd₂] at hdlen
            simpa using hdlen
          cases hr₁ : r₁ with
          | nil =>
            have hr₂ : r₂ = [] := by
              rw [hr₁] at hrlen
              exact List.length_eq_zero.1 hrlen.symm
            simp [xyzFrames, hs₁, hs₂, hd₁, hd₂, hbp, hr₁, hr₂]
          | cons hdr₁ rr₁ =>
            obtain ⟨hdr₂, rr₂, hr₂⟩ : ∃ hd r, r₂ = hd :: r := by
              cases hrt : r₂ with
              | nil => rw [hr₁, hrt] at hrlen; simp at hrlen
              | cons b r => exact ⟨b, r, rfl⟩
            have hrr₁ : rr₁ = T₁.drop (n + 2) := by
              have : T₁.drop (n + 2) = (T₁.drop n).drop 2 := by
                rw [List.drop_drop]
              rw [this, hd₁, hr₁]
              rfl
            have hrr₂ : rr₂ = T₂.drop (n + 2) := by
              have : T₂.drop (n + 2) = (T₂.drop n).drop 2 := by
                rw [List.drop_drop]
              rw [this, hd₂, hr₂]
              rfl
            have hrec : xyzFrames n fuel l rr₁ = xyzFrames n fuel l rr₂ := by
              rw [hrr₁, hrr₂]
              exact ih n l _ _ (trajRel_drop ⟨hlen, hrel⟩)
            rw [hr₁] at hd₁
            rw [hr₂] at hd₂
            simp [xyzFrames, hs₁, hs₂, hd₁, hd₂, hbp, hrec]

/-- Claim C10: two inputs that are identical except in the first
whitespace-delimited token (the atom id) of each particle line parse to
identical outputs: the atom-id token is bound but never used, and particle
order is determined solely by line order within each frame. -/
theorem c10_atomid_ignored (header : List String)
    (T₁ T₂ : List (List String)) (hlen : T₁.length = T₂.length)
    (hrel : ∀ n : Nat, headerNat header = some n → trajRel n T₁ T₂) :
    load_xyzfile (header :: T₁) = load_xyzfile (header :: T₂) := by
  cases hh : headerNat header with
  | none => simp [load_xyzfile, hh]
  | some n =>
    have h₁ : load_xyzfile (header :: T₁)
        = xyzFrames n (T₁.length + 1) [] T₁ := by
      simp [load_xyzfile, hh]
    have h₂ : load_xyzfile (header :: T₂)
        = xyzFrames n (T₂.length + 1) [] T₂ := by
      simp [load_xyzfile, hh]
    rw [h₁, h₂, ← hlen]
    exact xyzFrames_congr (T₁.length + 1) n [] T₁ T₂ (hrel n hh)

/-- Claim C10 witness: the spec's example input, once with atom ids 0,1,2 and
once with atom ids 9,8,7, parses identically. -/
theorem c10_witness :
    load_xyzfile [["3", "header"], ["0", "A", "0", "0", "0"],
        ["1", "B", "1", "0", "0"], ["2", "A", "0", "1", "0"],
        ["10", "10", "10"]]
      = load_xyzfile [["3", "header"], ["9", "A", "0", "0", "0"],
        ["8", "B", "1", "0", "0"], ["7", "A", "0", "1", "0"],
        ["10", "10", "10"]] :=
  c10_atomid_ignored ["3", "header"]
    [["0", "A", "0", "0", "0"], ["1", "B", "1", "0", "0"],
     ["2", "A", "0", "1", "0"], ["10", "10", "10"]]
    [["9", "A", "0", "0", "0"], ["8", "B", "1", "0", "0"],
     ["7", "A", "0", "1", "0"], ["10", "10", "10"]]
    (by decide)
    (fun n hn => by
      have hh : headerNat ["3", "header"] = some 3 := by decide
      rw [hh] at hn
      have h3 : n = 3 := by
        cases hn
        rfl
      subst h3
      decide)

/-! ## Claim C2: round-trip shape of the trajectory reader -/

lemma labelIndex_append (t : String) :
    ∀ (l₁ l₂ : List String), labelIndex (l₁ ++ l₂) t
      = if t ∈ l₁ then labelIndex l₁ t else l₁.length + labelIndex l₂ t := by
  intro l₁
  induction l₁ with
  | nil => intro l₂; simp [labelIndex]
  | cons a l ih =>
    intro l₂
    by_cases ha : a = t
    · simp [labelIndex, ha]
    · have hmem : (t ∈ a :: l) = (t ∈ l) := by
        simp [List.mem_cons]
        intro hta
        exact absurd hta.symm ha
      rw [List.cons_append, labelIndex, if_neg ha, ih l₂, labelIndex,
        if_neg ha]
      by_cases hm : t ∈ l
      · simp [hm, hmem]
      · simp [hm, hmem]
        omega

lemma labelIndex_inj :
    ∀ (l : List String), l.Nodup → ∀ s t, s ∈ l → t ∈ l →
      labelIndex l s = labelIndex l t → s = t := by
  intro l
  induction l with
  | nil => intro _ s t hs; cases hs
  | cons a l ih =>
    intro hnd s t hs ht heq
    have hnd' : l.Nodup := (List.nodup_cons.1 hnd).2
    have hna : a ∉ l := (List.nodup_cons.1 hnd).1
    by_cases has : a = s <;> by_cases hat : a = t
    · rw [← has, ← hat]
    · rw [labelIndex, if_pos has, labelIndex, if_neg hat] at heq
      omega
    · rw [labelIndex, if_neg has, labelIndex, if_pos hat] at heq
      omega
    · rw [labelIndex, if_neg has, labelIndex, if_neg hat] at heq
      have hs' : s ∈ l := by
        rcases List.mem_cons.1 hs with rfl | h
        · exact absurd rfl has
        · exact h
      have ht' : t ∈ l := by
        rcases List.mem_cons.1 ht with rfl | h
        · exact absurd rfl hat
        · exact h
      exact ih hnd' s t hs' ht' (by omega)

lemma atomtypeNumeric_snd (seen : List String) (t : String) :
    (atomtypeNumeric seen t).2 = if t ∈ seen then seen else seen ++ [t] := by
  unfold atomtypeNumeric
  split <;> rfl

lemma firstOcc_cons (seen : List String) (t : String) (ts : List String) :
    firstOcc seen (t :: ts)
      = firstOcc (if t ∈ seen then seen else seen ++ [t]) ts := rfl

lemma firstOcc_append (seen : List String) (ts₁ ts₂ : List String) :
    firstOcc seen (ts₁ ++ ts₂) = firstOcc (firstOcc seen ts₁) ts₂ :=
  List.foldl_append _ _ _ _

lemma firstOcc_extends :
    ∀ (ts seen : List String), ∃ e, firstOcc seen ts = seen ++ e := by
  intro ts
  induction ts with
  | nil => intro seen; exact ⟨[], by simp [firstOcc]⟩
  | cons t ts ih =>
    intro seen
    rw [firstOcc_cons]
    by_cases ht : t ∈ seen
    · rw [if_pos ht]; exact ih seen
    · rw [if_neg ht]
      obtain ⟨e, he⟩ := ih (seen ++ [t])
      exact ⟨[t] ++ e, by rw [he, List.append_assoc]⟩

lemma firstOcc_nodup :
    ∀ (ts seen : List String), seen.Nodup → (firstOcc seen ts).Nodup := by
  intro ts
  induction ts with
  | nil => intro seen h; exact h
  | cons t ts ih =>
    intro seen h
    rw [firstOcc_cons]
    by_cases ht : t ∈ seen
    · rw [if_pos ht]; exact ih seen h
    · rw [if_neg ht]
      refine ih (seen ++ [t]) ?_
      simp [List.nodup_append, h, ht]

lemma typesAux_eq :
    ∀ (ps : List PLine) (seen final : List String),
      (∃ e, firstOcc seen (ps.map PLine.atomtype) ++ e = final) →
      typesAux seen ps = ps.map (fun p => labelIndex final p.atomtype) := by
  intro ps
  induction ps with
  | nil => intro seen final _; rfl
  | cons p ps ih =>
    intro seen final hfin
    obtain ⟨e, he⟩ := hfin
    rw [List.map_cons, firstOcc_cons] at he
    show (atomtypeNumeric seen p.atomtype).1 ::
        typesAux (atomtypeNumeric seen p.atomtype).2 ps = _
    rw [List.map_cons]
    by_cases ht : p.atomtype ∈ seen
    · rw [if_pos ht] at he
      have hsnd : (atomtypeNumeric seen p.atomtype).2 = seen := by
        rw [atomtypeNumeric_snd, if_pos ht]
      have hfst : (atomtypeNumeric seen p.atomtype).1
          = labelIndex seen p.atomtype := by
        unfold atomtypeNumeric
        rw [if_pos ht]
      have hhead : labelIndex final p.atomtype = labelIndex seen p.atomtype := by
        obtain ⟨e₁, he₁⟩ := firstOcc_extends (ps.map PLine.atomtype) seen
        rw [← he, he₁, List.append_assoc, labelIndex_append, if_pos ht]
      rw [hsnd, hfst, hhead, ih seen final ⟨e, he⟩]
    · rw [if_neg ht] at he
      have hsnd : (atomtypeNumeric seen p.atomtype).2 = seen ++ [p.atomtype] := by
        rw [atomtypeNumeric_snd, if_neg ht]
      have hfst : (atomtypeNumeric seen p.atomtype).1 = seen.length := by
        unfold atomtypeNumeric
        rw [if_neg ht]
      have hhead : labelIndex final p.atomtype = seen.length := by
        obtain ⟨e₁, he₁⟩ := firstOcc_extends (ps.map PLine.atomtype)
          (seen ++ [p.atomtype])
        rw [← he, he₁, List.append_assoc, List.append_assoc,
          labelIndex_append, if_neg ht]
        simp [labelIndex]
      rw [hsnd, hfst, hhead, ih (seen ++ [p.atomtype]) final ⟨e, he⟩]

lemma framesAux_eq :
    ∀ (bs : List Block) (seen final : List String),
      (∃ e, firstOcc seen (bs.flatMap blockTypes) ++ e = final) →
      framesAux seen bs = bs.map (frameOf final) := by
  intro bs
  induction bs with
  | nil => intro seen final _; rfl
  | cons b bs ih =>
    intro seen final hfin
    obtain ⟨e, he⟩ := hfin
    rw [List.flatMap_cons, firstOcc_append] at he
    have htypes : typesAux seen b.particles
        = b.particles.map (fun p => labelIndex final p.atomtype) := by
      refine typesAux_eq b.particles seen final ?_
      obtain ⟨e₁, he₁⟩ := firstOcc_extends (bs.flatMap blockTypes)
        (firstOcc seen (blockTypes b))
      refine ⟨e₁ ++ e, ?_⟩
      show firstOcc seen (b.particles.map PLine.atomtype) ++ (e₁ ++ e) = final
      have hbt : firstOcc seen (b.particles.map PLine.atomtype)
          = firstOcc seen (blockTypes b) := rfl
      rw [hbt, ← List.append_assoc, ← he₁, he]
    show (⟨b.particles.map plinePos, typesAux seen b.particles,
        b.box.map (fun t => (pyFloat t).getD 0)⟩ : Frame) ::
        framesAux (firstOcc seen (blockTypes b)) bs = _
    rw [List.map_cons, htypes,
      ih (firstOcc seen (blockTypes b)) final ⟨e, he⟩]
    rfl

lemma parseBox_render (box : List String)
    (h : ∀ t ∈ box, (pyFloat t).isSome) :
    parseBox box = some (box.map (fun t => (pyFloat t).getD 0)) := by
  induction box with
  | nil => rfl
  | cons t ts ih =>
    obtain ⟨v, hv⟩ := Option.isSome_iff_exists.1 (h t (List.mem_cons_self t ts))
    have hts := ih (fun u hu => h u (List.mem_cons_of_mem t hu))
    simp [parseBox, hv, hts]

lemma parseParticles_render :
    ∀ (ps : List PLine) (seen : List String) (suffix : List (List String)),
      (∀ p ∈ ps, (pyFloat p.xs).isSome ∧ (pyFloat p.ys).isSome
        ∧ (pyFloat p.zs).isSome) →
      parseParticles seen ps.length (ps.map plineTokens ++ suffix)
        = some (ps.map plinePos, typesAux seen ps,
            firstOcc seen (ps.map PLine.atomtype), suffix) := by
  intro ps
  induction ps with
  | nil => intro seen suffix _; rfl
  | cons p ps ih =>
    intro seen suffix h
    obtain ⟨x, hx⟩ := Option.isSome_iff_exists.1
      (h p (List.mem_cons_self p ps)).1
    obtain ⟨y, hy⟩ := Option.isSome_iff_exists.1
      (h p (List.mem_cons_self p ps)).2.1
    obtain ⟨z, hz⟩ := Option.isSome_iff_exists.1
      (h p (List.mem_cons_self p ps)).2.2
    have hline : parseParticleLine seen (plineTokens p)
        = some (plinePos p, (atomtypeNumeric seen p.atomtype).1,
            (atomtypeNumeric seen p.atomtype).2) := by
      simp [parseParticleLine, plineTokens, hx, hy, hz, plinePos]
    have hrec := ih (atomtypeNumeric seen p.atomtype).2 suffix
      (fun q hq => h q (List.mem_cons_of_mem p hq))
    have hocc : firstOcc seen (PLine.atomtype p :: ps.map PLine.atomtype)
        = firstOcc (atomtypeNumeric seen p.atomtype).2
            (ps.map PLine.atomtype) := by
      rw [firstOcc_cons, atomtypeNumeric_snd]
    show parseParticles seen (ps.length + 1)
        (plineTokens p :: (ps.map plineTokens ++ suffix)) = _
    simp [parseParticles, hline, hrec, hocc, typesAux]

lemma xyzFrames_render :
    ∀ (bs : List Block) (b : Block) (n : Nat) (seen : List String)
      (fuel : Nat), (∀ blk ∈ b :: bs, wfBlock n blk) →
      (blockLines b ++ renderBlocks bs).length < fuel →
      xyzFrames n fuel seen (blockLines b ++ renderBlocks bs)
        = some (framesAux seen (b :: bs)) := by
  intro bs
  induction bs with
  | nil =>
    intro b n seen fuel hwf hfuel
    obtain ⟨hnp, hfl, hbox3, hboxfl⟩ := hwf b (List.mem_cons_self b [])
    cases fuel with
    | zero => exact absurd hfuel (by omega)
    | succ fuel =>
      subst hnp
      have hpp := parseParticles_render b.particles seen [b.box] hfl
      have hpb := parseBox_render b.box hboxfl
      have hlines : blockLines b ++ renderBlocks []
          = b.particles.map plineTokens ++ [b.box] := by
        simp [blockLines, renderBlocks]
      rw [hlines]
      simp [xyzFrames, hpp, hpb, framesAux]
  | cons b' bs' ih =>
    intro b n seen fuel hwf hfuel
    obtain ⟨hnp, hfl, hbox3, hboxfl⟩ := hwf b (List.mem_cons_self b _)
    cases fuel with
    | zero => exact absurd hfuel (by omega)
    | succ fuel =>
      subst hnp
      have hsuffix : blockLines b ++ renderBlocks (b' :: bs')
          = b.particles.map plineTokens
            ++ (b.box :: (b'.header :: (blockLines b' ++ renderBlocks bs'))) := by
        simp [blockLines, renderBlocks]
      have hpp := parseParticles_render b.particles seen
        (b.box :: (b'.header :: (blockLines b' ++ renderBlocks bs'))) hfl
      have hpb := parseBox_render b.box hboxfl
      have hfuel' : (blockLines b' ++ renderBlocks bs').length < fuel := by
        rw [hsuffix] at hfuel
        simp only [List.length_append, List.length_map, List.length_cons]
          at hfuel ⊢
        omega
      have hrec := ih b' b.particles.length
        (firstOcc seen (b.particles.map PLine.atomtype)) fuel
        (fun blk hblk => hwf blk (List.mem_cons_of_mem b hblk)) hfuel'
      rw [hsuffix]
      simp [xyzFrames, hpp, hpb, hrec, framesAux, blockTypes]

lemma pyFloat_lit_zero : pyFloat "0" = some (0 : ℚ) := by
  have h : pyFloat "0" = some ((digitsToNat ['0'] : ℕ) : ℚ) := rfl
  have hd : digitsToNat ['0'] = 0 := by decide
  rw [h, hd]
  norm_num

lemma pyFloat_lit_one : pyFloat "1" = some (1 : ℚ) := by
  have h : pyFloat "1" = some ((digitsToNat ['1'] : ℕ) : ℚ) := rfl
  have hd : digitsToNat ['1'] = 1 := by decide
  rw [h, hd]
  norm_num

lemma pyFloat_lit_ten : pyFloat "10" = some (10 : ℚ) := by
  have h : pyFloat "10" = some ((digitsToNat ['1', '0'] : ℕ) : ℚ) := rfl
  have hd : digitsToNat ['1', '0'] = 10 := by decide
  rw [h, hd]
  norm_num

lemma load_xyzfile_render (n : Nat) (b : Block) (bs : List Block)
    (tok : String) (more : List String) (hhd : b.header = tok :: more)
    (htok : pyInt tok = some (n : Int))
    (hwf : ∀ blk ∈ b :: bs, wfBlock n blk) :
    load_xyzfile (renderBlocks (b :: bs))
      = some ((b :: bs).map (frameOf (allTypeLabels (b :: bs)))) := by
  have hhn : headerNat b.header = some n := by
    rw [hhd]
    simp [headerNat, htok, Int.toNat_natCast,
      show ¬((n : Int) < 0) from not_lt.2 (Int.natCast_nonneg n)]
  have hrb : renderBlocks (b :: bs)
      = b.header :: (blockLines b ++ renderBlocks bs) := rfl
  have hload : load_xyzfile (b.header :: (blockLines b ++ renderBlocks bs))
      = xyzFrames n ((blockLines b ++ renderBlocks bs).length + 1) []
          (blockLines b ++ renderBlocks bs) := by
    simp [load_xyzfile, hhn]
  rw [hrb, hload, xyzFrames_render bs b n [] _ hwf (by omega)]
  congr 1
  exact framesAux_eq (b :: bs) [] (allTypeLabels (b :: bs))
    ⟨[], by simp [allTypeLabels]⟩

/-- Claim C2: a well-formed trajectory input of `F` blocks of `N` particles
each (first header token parsing to `N`, coordinates and the 3 box entries
parsing as floats) is read back as exactly `F` frames whose positions, types
and box have lengths `N`, `N` and `3`; the numeric type labels come from one
single label list for the whole parse — the distinct atomtype strings in
first-occurrence order (`allTypeLabels`, duplicate-free, so distinct strings
get distinct integers); and the spec's concrete input yields one frame with
positions `[[0,0,0],[1,0,0],[0,1,0]]`, types `[0,1,0]`, box `[10,10,10]`. -/
theorem c2_roundtrip (n : Nat) (b : Block) (bs : List Block) (tok : String)
    (more : List String) (hhd : b.header = tok :: more)
    (htok : pyInt tok = some (n : Int))
    (hwf : ∀ blk ∈ b :: bs, wfBlock n blk) :
    load_xyzfile (renderBlocks (b :: bs))
      = some ((b :: bs).map (frameOf (allTypeLabels (b :: bs))))
    ∧ ((b :: bs).map (frameOf (allTypeLabels (b :: bs)))).length
        = (b :: bs).length
    ∧ (allTypeLabels (b :: bs)).Nodup
    ∧ (∀ s₁ s₂, s₁ ∈ allTypeLabels (b :: bs) → s₂ ∈ allTypeLabels (b :: bs) →
        labelIndex (allTypeLabels (b :: bs)) s₁
          = labelIndex (allTypeLabels (b :: bs)) s₂ → s₁ = s₂)
    ∧ (∀ fr ∈ (b :: bs).map (frameOf (allTypeLabels (b :: bs))),
        fr.configuration.length = n ∧ fr.atomtypes.length = n
          ∧ fr.boxsize.length = 3)
    ∧ exampleTokens = renderBlocks [exampleBlock]
    ∧ load_xyzfile exampleTokens
        = some [⟨[((0 : ℚ), 0, 0), ((1 : ℚ), 0, 0), ((0 : ℚ), 1, 0)],
            [0, 1, 0], [(10 : ℚ), 10, 10]⟩] := by
  have hnodup : (allTypeLabels (b :: bs)).Nodup := by
    show (firstOcc [] ((b :: bs).flatMap blockTypes)).Nodup
    exact firstOcc_nodup _ [] List.nodup_nil
  refine ⟨load_xyzfile_render n b bs tok more hhd htok hwf, by simp, hnodup,
    labelIndex_inj _ hnodup, ?_, by decide, ?_⟩
  · intro fr hfr
    obtain ⟨blk, hblk, rfl⟩ := List.mem_map.1 hfr
    obtain ⟨hnp, _, hbox3, _⟩ := hwf blk hblk
    exact ⟨by simp [frameOf, hnp], by simp [frameOf, hnp],
      by simp [frameOf, hbox3]⟩
  · have hex : exampleTokens = renderBlocks [exampleBlock] := by decide
    have hwfe : ∀ blk ∈ [exampleBlock], wfBlock 3 blk := by decide
    have h1 := load_xyzfile_render 3 exampleBlock [] "3" ["header"]
      (by decide) (by decide) hwfe
    rw [hex, h1]
    have hlabels : allTypeLabels [exampleBlock] = ["A", "B"] := by decide
    rw [hlabels]
    have hconf : exampleBlock.particles.map plinePos
        = [((0 : ℚ), 0, 0), ((1 : ℚ), 0, 0), ((0 : ℚ), 1, 0)] := by
      simp [exampleBlock, plinePos, pyFloat_lit_zero, pyFloat_lit_one]
    have hty : exampleBlock.particles.map
        (fun p => labelIndex ["A", "B"] p.atomtype) = [0, 1, 0] := by decide
    have hbox : exampleBlock.box.map (fun t => (pyFloat t).getD 0)
        = [(10 : ℚ), 10, 10] := by
      simp [exampleBlock, pyFloat_lit_ten]
    simp [frameOf, hconf, hty, hbox]

/-- Claim C2 witness: the theorem at the spec's concrete one-block input. -/
theorem c2_witness :
    load_xyzfile (renderBlocks [exampleBlock])
      = some ([exampleBlock].map (frameOf (allTypeLabels [exampleBlock])))
    ∧ ([exampleBlock].map (frameOf (allTypeLabels [exampleBlock]))).length
        = [exampleBlock].length
    ∧ (allTypeLabels [exampleBlock]).Nodup
    ∧ (∀ s₁ s₂, s₁ ∈ allTypeLabels [exampleBlock] →
        s₂ ∈ allTypeLabels [exampleBlock] →
        labelIndex (allTypeLabels [exampleBlock]) s₁
          = labelIndex (allTypeLabels [exampleBlock]) s₂ → s₁ = s₂)
    ∧ (∀ fr ∈ [exampleBlock].map (frameOf (allTypeLabels [exampleBlock])),
        fr.configuration.length = 3 ∧ fr.atomtypes.length = 3
          ∧ fr.boxsize.length = 3)
    ∧ exampleTokens = renderBlocks [exampleBlock]
    ∧ load_xyzfile exampleTokens
        = some [⟨[((0 : ℚ), 0, 0), ((1 : ℚ), 0, 0), ((0 : ℚ), 1, 0)],
            [0, 1, 0], [(10 : ℚ), 10, 10]⟩] :=
  c2_roundtrip 3 exampleBlock [] "3" ["header"] (by decide) (by decide)
    (by decide)

end PyVMDStream
